import Mathlib

/-!
Verification of the semantic-analysis pass of the HLSL translator
(HLSLAnalyzer.cpp). The analyzer walks a parsed shader AST once,
resolves identifiers against a lexically scoped symbol table, and
decorates nodes in place with derived facts (entry point, shader
input/output structures, intrinsic usage), accumulating non-fatal
diagnostics. This file gives a shallow embedding of that pass as pure
state-passing functions and proves properties of it.

Modelling notes:
* In-place mutation of structure nodes through non-owning references
  (symbol references) is modelled by giving every structure node an
  identity (a natural number) and keeping the mutable part of the node
  (its two shader flags and alias name) in a store indexed by that
  identity, threaded through the walk.
* The diagnostic sink is modelled by the pair of a `hasErrors` flag
  (exactly as in the source) and a counter `reported` of how many
  diagnostics were forwarded during the call.
* The read of `varDecls.front()` on an empty vector performed by the
  source in the VarDeclStmnt rule (an out-of-bounds access) is recorded
  in the state flag `frontOnEmpty` instead of producing a value.
* The counter `aliasOverwrites` counts how often a structure alias name
  that was already set to a non-empty string is replaced by a different
  string; it observes overwrites without changing any behaviour.
-/

namespace HTLib

/-- Modelled from the spec: the closed set of AST node variants
(`AST::Types` in the missing tree header); the spec lists the variants
and keeps `Structure` and `StructDecl` distinct. -/
inductive ASTTypes where
  | Program | CodeBlock | FunctionCall | Structure | FunctionDecl
  | BufferDecl | StructDecl | VarDeclStmnt | CtrlTransferStmnt
  | PackOffset | VarSemantic | VarType | VarIdent | VarDecl
deriving DecidableEq

/-- A non-owning reference to a declaring AST node, as stored in the
symbol table and in symbol references. The payload is the identity of
the referenced node. -/
inductive Symbol where
  | structSym (sid : Nat)
  | funcSym (fid : Nat)
deriving DecidableEq

/-- Modelled from the spec: the runtime variant tag of the node behind
a symbol (`AST::Type()` in the missing tree header). The structure
rule registers the `Structure` node itself, so its tag is `Structure`,
not `StructDecl`. -/
def Symbol.astType : Symbol → ASTTypes
  | .structSym _ => ASTTypes.Structure
  | .funcSym _ => ASTTypes.FunctionDecl

/-- Intrinsic family tags; the source defines exactly one family. -/
inductive IntrinsicClasses where
  | Interlocked
deriving DecidableEq

/-- Generic association-list lookup (first match wins). -/
def assocLookup {κ α : Type} [DecidableEq κ] : List (κ × α) → κ → Option α
  | [], _ => none
  | (m, v) :: rest, n => if m = n then some v else assocLookup rest n

/-- The static intrinsic map established in `EstablishMaps`. -/
def intrinsicMap : List (String × IntrinsicClasses) :=
  [ ("InterlockedAdd",             .Interlocked),
    ("InterlockedAnd",             .Interlocked),
    ("InterlockedOr",              .Interlocked),
    ("InterlockedXor",             .Interlocked),
    ("InterlockedMin",             .Interlocked),
    ("InterlockedMax",             .Interlocked),
    ("InterlockedCompareExchange", .Interlocked),
    ("InterlockedExchange",        .Interlocked) ]

/-- The eight interlocked intrinsic names, as listed by the claim. -/
def interlockedNames : List String :=
  [ "InterlockedAdd", "InterlockedAnd", "InterlockedOr", "InterlockedXor",
    "InterlockedMin", "InterlockedMax", "InterlockedCompareExchange",
    "InterlockedExchange" ]

/-- Variable identifier chain (`VarIdent`): an identifier and an
optional chained identifier for member access. Array index expressions
are omitted because no expression visitor in the source reaches them. -/
inductive VarIdent where
  | mk (ident : String) (next : Option VarIdent)

/-- Modelled from the spec: the helper `FullVarIdent` (defined outside
this source file) producing the full dotted name of an identifier
chain, used by the function-call rule to resolve the called name. -/
def FullVarIdent : VarIdent → String
  | .mk ident none => ident
  | .mk ident (some v) => ident ++ "." ++ FullVarIdent v

/-- Modelled from the spec: expression nodes; their visitors are elided
in this source file (the spec says expression variants are not
individually decorated, their children are visited). An expression is
either a function-call node (name chain plus argument expressions) or
an undecorated leaf. -/
inductive Expr where
  | call (name : VarIdent) (arguments : List Expr)
  | literal

/-- Variable declarator (`VarDecl`): name, array dimension expressions
and optional initializer. Its semantic annotations are leaf nodes whose
visit does nothing and are omitted. -/
structure VarDecl where
  name : String
  arrayDims : List Expr
  initializer : Option Expr

mutual
/-- Variable type node (`VarType`): a base type named by identifier, an
optional inline structure, and the symbol reference recorded during
decoration. -/
inductive VarType where
  | mk (baseType : String) (structType : Option Structure) (symbolRef : Option Symbol)
/-- Structure node (`Structure`): identity (modelling device for
in-place mutation through references), name and member declarations.
Its mutable flags and alias name live in the analyzer store. -/
inductive Structure where
  | mk (sid : Nat) (name : String) (members : List VarDeclStmnt)
/-- Variable declaration statement (`VarDeclStmnt`): a type, a list of
declarators, and the two shader-boundary statement flags. -/
inductive VarDeclStmnt where
  | mk (varType : VarType) (varDecls : List VarDecl)
       (isShaderInput : Bool) (isShaderOutput : Bool)
end

def VarType.baseType : VarType → String
  | .mk b _ _ => b

def VarType.structType : VarType → Option Structure
  | .mk _ s _ => s

def VarType.symbolRef : VarType → Option Symbol
  | .mk _ _ r => r

def Structure.sid : Structure → Nat
  | .mk i _ _ => i

def Structure.name : Structure → String
  | .mk _ n _ => n

def Structure.members : Structure → List VarDeclStmnt
  | .mk _ _ ms => ms

def VarDeclStmnt.varType : VarDeclStmnt → VarType
  | .mk vt _ _ _ => vt

def VarDeclStmnt.varDecls : VarDeclStmnt → List VarDecl
  | .mk _ vds _ _ => vds

def VarDeclStmnt.isShaderInput : VarDeclStmnt → Bool
  | .mk _ _ i _ => i

def VarDeclStmnt.isShaderOutput : VarDeclStmnt → Bool
  | .mk _ _ _ o => o

/-- Modelled from the spec: statement kinds. The source shows visitors
for variable declaration statements and control transfer statements;
the remaining kinds follow the walker description (a nested code block
opens and closes a scope, an expression statement visits its
expression). -/
inductive Stmnt where
  | varDeclStmnt (v : VarDeclStmnt)
  | ctrlTransferStmnt
  | codeBlockStmnt (stmnts : List Stmnt)
  | exprStmnt (e : Expr)

/-- Function declaration node (`FunctionDecl`). Attribute nodes are
omitted (their visitors are elided in the source). The two flags are
the mutable decoration bits of the node. -/
structure FunctionDecl where
  fid : Nat
  name : String
  returnType : VarType
  parameters : List VarDeclStmnt
  codeBlock : List Stmnt
  isEntryPoint : Bool := false
  isUsed : Bool := false

/-- Buffer declaration node (`BufferDecl`). -/
structure BufferDecl where
  bufferType : String
  members : List VarDeclStmnt

/-- Global declarations of a program. A struct declaration wraps a
structure node. -/
inductive GlobalDecl where
  | functionDecl (f : FunctionDecl)
  | bufferDecl (b : BufferDecl)
  | structDecl (s : Structure)

/-- Program node with its two intrinsic-usage flags. -/
structure Program where
  globalDecls : List GlobalDecl
  mulIntrinsicUsed : Bool := false
  interlockedIntrinsicsUsed : Bool := false

/-- The mutable decoration state of a structure node: the two shader
flags and the alias name. -/
structure StructMut where
  isShaderInput : Bool := false
  isShaderOutput : Bool := false
  aliasName : String := ""
deriving DecidableEq

/-- A scope frame of the symbol table. -/
abbrev Frame := List (String × Symbol)

/-- The scoped symbol table: frames, innermost first. -/
abbrev SymTable := List Frame

/-- Lookup of a name inside one frame. -/
def lookupName : Frame → String → Option Symbol
  | [], _ => none
  | (m, s) :: rest, n => if m = n then some s else lookupName rest n

/-- Modelled from the spec: `fetch` searches frames innermost to
outermost and returns the first match. -/
def fetchTable : SymTable → String → Option Symbol
  | [], _ => none
  | f :: rest, n =>
    match lookupName f n with
    | some s => some s
    | none => fetchTable rest n

/-- Replace the first binding of a name inside a frame. -/
def replaceName : Frame → String → Symbol → Frame
  | [], _, _ => []
  | (m, v) :: rest, n, s =>
    if m = n then (n, s) :: rest else (m, v) :: replaceName rest n s

/-- Modelled from the spec: `register` inserts into the innermost frame
if the name is absent there; if present, the override predicate is
evaluated on the existing entry: true updates the slot, false fails
with a duplicate-symbol condition (`none`). Outer frames are never
searched. -/
def registerTable (tbl : SymTable) (n : String) (s : Symbol)
    (ovr : Symbol → Bool) : Option SymTable :=
  match tbl with
  | [] => none
  | f :: rest =>
    match lookupName f n with
    | none => some (((n, s) :: f) :: rest)
    | some old => if ovr old then some (replaceName f n s :: rest) else none

/-- Whether a symbol occurs anywhere in the table. -/
def tableHasSym (tbl : SymTable) (sym : Symbol) : Bool :=
  tbl.any (fun f => f.any (fun e => e.2 = sym))

/-- The analyzer state threaded through the walk: the scoped symbol
table, the mutable structure store, the diagnostic state, the two
program intrinsic flags (read and written through the program pointer
in the source), and the ambient traversal context. `frontOnEmpty` and
`aliasOverwrites` are observational instrumentation, see the header. -/
structure AnalyzerState where
  symTable : SymTable
  structs : List (Nat × StructMut)
  hasErrors : Bool
  reported : Nat
  mulIntrinsicUsed : Bool
  interlockedIntrinsicsUsed : Bool
  isInsideEntryPoint : Bool
  entryPoint : String
  frontOnEmpty : Bool
  aliasOverwrites : Nat

/-- Read the mutable state of the structure with the given identity
(default state when the store has no entry yet). -/
def getStruct (sts : List (Nat × StructMut)) (i : Nat) : StructMut :=
  (assocLookup sts i).getD {}

/-- Pointwise update of the structure store. -/
def updStruct : List (Nat × StructMut) → Nat → (StructMut → StructMut) →
    List (Nat × StructMut)
  | [], i, g => [(i, g {})]
  | (j, m) :: rest, i, g =>
    if j = i then (j, g m) :: rest else (j, m) :: updStruct rest i g

/-- `Error`: set the persistent error flag and forward one diagnostic. -/
def Error (st : AnalyzerState) : AnalyzerState :=
  { st with hasErrors := true, reported := st.reported + 1 }

/-- `OpenScope`. -/
def OpenScope (st : AnalyzerState) : AnalyzerState :=
  { st with symTable := [] :: st.symTable }

/-- `CloseScope`. -/
def CloseScope (st : AnalyzerState) : AnalyzerState :=
  { st with symTable := st.symTable.tail }

/-- `Register`: a failed table registration is reported as an error and
the walk continues (the table keeps the existing entry). -/
def Register (st : AnalyzerState) (n : String) (s : Symbol)
    (ovr : Symbol → Bool) : AnalyzerState :=
  match registerTable st.symTable n s ovr with
  | some tbl => { st with symTable := tbl }
  | none => Error st

/-- The override predicate of the structure rule: permit redeclaration
only when the existing entry is a struct declaration. -/
def structDeclOverride : Symbol → Bool :=
  fun sym => sym.astType = ASTTypes.StructDecl

/-- The override predicate of the function rule: permit redeclaration
only when the existing entry is a function declaration. -/
def functionDeclOverride : Symbol → Bool :=
  fun sym => sym.astType = ASTTypes.FunctionDecl

/-- Set one shader flag of a structure in the store. -/
def addStructFlag (st : AnalyzerState) (i : Nat) (isInput : Bool) :
    AnalyzerState :=
  { st with structs := updStruct st.structs i (fun m =>
      if isInput then { m with isShaderInput := true }
      else { m with isShaderOutput := true }) }

/-- Assign the alias name of a structure in the store, counting
overwrites of a different non-empty previous value. -/
def setAliasName (st : AnalyzerState) (i : Nat) (n : String) :
    AnalyzerState :=
  let old := (getStruct st.structs i).aliasName
  { st with
    structs := updStruct st.structs i (fun m => { m with aliasName := n }),
    aliasOverwrites :=
      if old ≠ "" ∧ old ≠ n then st.aliasOverwrites + 1
      else st.aliasOverwrites }

mutual
/-- `VisitFunctionCall` together with the expression dispatch: resolve
the full called name, set the program intrinsic flags, then visit every
argument expression. -/
def VisitExpr : Expr → AnalyzerState → AnalyzerState
  | .literal, st => st
  | .call nm args, st =>
    let n := FullVarIdent nm
    let st :=
      if n = "mul" then { st with mulIntrinsicUsed := true }
      else
        match assocLookup intrinsicMap n with
        | some .Interlocked => { st with interlockedIntrinsicsUsed := true }
        | none => st
    VisitExprs args st
/-- Visit a list of expressions in order. -/
def VisitExprs : List Expr → AnalyzerState → AnalyzerState
  | [], st => st
  | e :: es, st => VisitExprs es (VisitExpr e st)
end

/-- Visit an optional expression (a null child is not visited). -/
def VisitOptExpr : Option Expr → AnalyzerState → AnalyzerState
  | none, st => st
  | some e, st => VisitExpr e st

/-- `VisitVarDecl`: visit array dimensions and the initializer; leaf
semantic annotations do nothing; no decoration. -/
def VisitVarDecl (vd : VarDecl) (st : AnalyzerState) : AnalyzerState :=
  VisitOptExpr vd.initializer (VisitExprs vd.arrayDims st)

/-- Visit a list of declarators in order. -/
def VisitVarDecls : List VarDecl → AnalyzerState → AnalyzerState
  | [], st => st
  | d :: ds, st => VisitVarDecls ds (VisitVarDecl d st)

mutual
/-- `VisitVarType`: a named base type is resolved via fetch and, only
when found, recorded as the symbol reference (no error otherwise); an
inline structure is visited; a type with neither reports a missing
variable type error. -/
def VisitVarType : VarType → AnalyzerState → VarType × AnalyzerState
  | .mk baseType none symbolRef, st =>
    match baseType == "" with
    | false =>
      match fetchTable st.symTable baseType with
      | some sym => (.mk baseType none (some sym), st)
      | none => (.mk baseType none symbolRef, st)
    | true => (.mk baseType none symbolRef, Error st)
  | .mk baseType (some s) symbolRef, st =>
    match baseType == "" with
    | false =>
      match fetchTable st.symTable baseType with
      | some sym => (.mk baseType (some s) (some sym), st)
      | none => (.mk baseType (some s) symbolRef, st)
    | true =>
      (.mk baseType (some (VisitStructure s st).1) symbolRef,
       (VisitStructure s st).2)
/-- `VisitStructure`: a named structure is registered in the current
scope under its name with the struct-declaration override predicate;
anonymous structures are not registered; then the members are visited. -/
def VisitStructure : Structure → AnalyzerState → Structure × AnalyzerState
  | .mk sid name members, st =>
    let st :=
      if name ≠ "" then Register st name (.structSym sid) structDeclOverride
      else st
    let r := VisitVarDeclStmnts members st
    (.mk sid name r.1, r.2)
/-- Visit a list of variable declaration statements in order. -/
def VisitVarDeclStmnts : List VarDeclStmnt → AnalyzerState →
    List VarDeclStmnt × AnalyzerState
  | [], st => ([], st)
  | d :: ds, st =>
    let r1 := VisitVarDeclStmnt d st
    let r2 := VisitVarDeclStmnts ds r1.2
    (r1.1 :: r2.1, r2.2)
/-- `VisitVarDeclStmnt`: visit the type, then the declarators; inside
the entry function, a statement with an empty declarator list whose
type resolves to a structure marked shader output with an empty alias
takes the alias-assignment branch, which in the source reads the first
element of the empty declarator list (recorded in `frontOnEmpty`). -/
def VisitVarDeclStmnt : VarDeclStmnt → AnalyzerState →
    VarDeclStmnt × AnalyzerState
  | .mk varType varDecls inF outF, st =>
    let r := VisitVarType varType st
    let st1 := VisitVarDecls varDecls r.2
    let st2 :=
      if st1.isInsideEntryPoint && varDecls.isEmpty then
        match r.1.symbolRef with
        | some (.structSym sid) =>
          let m := getStruct st1.structs sid
          if m.isShaderOutput && m.aliasName = "" then
            match varDecls.head? with
            | some vd => setAliasName st1 sid vd.name
            | none => { st1 with frontOnEmpty := true }
          else st1
        | _ => st1
      else st1
    (.mk r.1 varDecls inF outF, st2)
end

mutual
/-- Statement dispatch: variable declaration statements and control
transfer statements follow the source; a nested code block opens a
scope, visits its statements and closes the scope; an expression
statement visits its expression. -/
def VisitStmnt : Stmnt → AnalyzerState → Stmnt × AnalyzerState
  | .varDeclStmnt v, st =>
    let r := VisitVarDeclStmnt v st
    (.varDeclStmnt r.1, r.2)
  | .ctrlTransferStmnt, st => (.ctrlTransferStmnt, st)
  | .codeBlockStmnt stmnts, st =>
    let r := VisitStmnts stmnts (OpenScope st)
    (.codeBlockStmnt r.1, CloseScope r.2)
  | .exprStmnt e, st => (.exprStmnt e, VisitExpr e st)
/-- Visit a list of statements in order. -/
def VisitStmnts : List Stmnt → AnalyzerState → List Stmnt × AnalyzerState
  | [], st => ([], st)
  | s :: ss, st =>
    let r1 := VisitStmnt s st
    let r2 := VisitStmnts ss r1.2
    (r1.1 :: r2.1, r2.2)
end

/-- `VisitCodeBlock`: open a scope, visit the statements, close the
scope. -/
def VisitCodeBlock (stmnts : List Stmnt) (st : AnalyzerState) :
    List Stmnt × AnalyzerState :=
  let r := VisitStmnts stmnts (OpenScope st)
  (r.1, CloseScope r.2)

/-- `DecorateEntryInOut` on a bare variable type: set the computed
shader flag on the inline structure and on the referenced structure. -/
def DecorateEntryInOutType (ast : VarType) (isInput : Bool)
    (st : AnalyzerState) : AnalyzerState :=
  let st :=
    match ast.structType with
    | some s => addStructFlag st s.sid isInput
    | none => st
  match ast.symbolRef with
  | some (.structSym sid) => addStructFlag st sid isInput
  | _ => st

/-- `DecorateEntryInOut` on a variable declaration statement: set the
statement flag, the inline structure flag, and the referenced structure
flag; when the statement has at least one declarator, assign the alias
name of the referenced structure from the first declarator (the source
does not guard on the alias being empty here). -/
def DecorateEntryInOutStmnt : VarDeclStmnt → Bool → AnalyzerState →
    VarDeclStmnt × AnalyzerState
  | .mk varType varDecls inF outF, isInput, st =>
    let st1 :=
      match varType.structType with
      | some s => addStructFlag st s.sid isInput
      | none => st
    let st2 :=
      match varType.symbolRef with
      | some (.structSym sid) =>
        match varDecls.head? with
        | some vd => setAliasName (addStructFlag st1 sid isInput) sid vd.name
        | none => addStructFlag st1 sid isInput
      | _ => st1
    (if isInput then .mk varType varDecls true outF
     else .mk varType varDecls inF true, st2)

/-- Decorate every entry-point parameter as shader input. -/
def DecorateParams : List VarDeclStmnt → AnalyzerState →
    List VarDeclStmnt × AnalyzerState
  | [], st => ([], st)
  | p :: ps, st =>
    let r1 := DecorateEntryInOutStmnt p true st
    let r2 := DecorateParams ps r1.2
    (r1.1 :: r2.1, r2.2)

/-- `VisitFunctionDecl`: register the name, visit the header (return
type, then parameters), mark and decorate the entry point when the name
equals the configured entry-point name, then visit the body with the
inside-entry-function flag set, clearing it afterwards. -/
def VisitFunctionDecl (ast : FunctionDecl) (st : AnalyzerState) :
    FunctionDecl × AnalyzerState :=
  let st := Register st ast.name (.funcSym ast.fid) functionDeclOverride
  let rrt := VisitVarType ast.returnType st
  let rps := VisitVarDeclStmnts ast.parameters rrt.2
  let isEntry := ast.name = st.entryPoint
  let entryStep :
      (Bool × Bool × List VarDeclStmnt × AnalyzerState) :=
    if isEntry then
      let st1 := DecorateEntryInOutType rrt.1 false rps.2
      let rdp := DecorateParams rps.1 st1
      (true, true, rdp.1, rdp.2)
    else (ast.isEntryPoint, ast.isUsed, rps.1, rps.2)
  let st2 := { entryStep.2.2.2 with isInsideEntryPoint := isEntry }
  let rbody := VisitCodeBlock ast.codeBlock st2
  let st3 := { rbody.2 with isInsideEntryPoint := false }
  ({ ast with
      returnType := rrt.1,
      parameters := entryStep.2.2.1,
      codeBlock := rbody.1,
      isEntryPoint := entryStep.1,
      isUsed := entryStep.2.1 }, st3)

/-- `VisitBufferDecl`: a buffer kind other than the constant-buffer
kind reports an error; the members are visited either way. -/
def VisitBufferDecl (ast : BufferDecl) (st : AnalyzerState) :
    BufferDecl × AnalyzerState :=
  let st := if ast.bufferType ≠ "cbuffer" then Error st else st
  let r := VisitVarDeclStmnts ast.members st
  ({ ast with members := r.1 }, r.2)

/-- `VisitStructDecl`: delegate to the structure rule. -/
def VisitStructDecl (s : Structure) (st : AnalyzerState) :
    Structure × AnalyzerState :=
  VisitStructure s st

/-- Global declaration dispatch. -/
def VisitGlobalDecl : GlobalDecl → AnalyzerState →
    GlobalDecl × AnalyzerState
  | .functionDecl f, st =>
    let r := VisitFunctionDecl f st
    (.functionDecl r.1, r.2)
  | .bufferDecl b, st =>
    let r := VisitBufferDecl b st
    (.bufferDecl r.1, r.2)
  | .structDecl s, st =>
    let r := VisitStructDecl s st
    (.structDecl r.1, r.2)

/-- Visit the global declarations in source order. -/
def VisitGlobalDecls : List GlobalDecl → AnalyzerState →
    List GlobalDecl × AnalyzerState
  | [], st => ([], st)
  | d :: ds, st =>
    let r1 := VisitGlobalDecl d st
    let r2 := VisitGlobalDecls ds r1.2
    (r1.1 :: r2.1, r2.2)

/-- `VisitProgram`: visit every top-level declaration in order; the
program intrinsic flags are read back from the state (the source
mutates them through the program pointer). -/
def VisitProgram (p : Program) (st : AnalyzerState) :
    Program × AnalyzerState :=
  let r := VisitGlobalDecls p.globalDecls st
  ({ p with
      globalDecls := r.1,
      mulIntrinsicUsed := r.2.mulIntrinsicUsed,
      interlockedIntrinsicsUsed := r.2.interlockedIntrinsicsUsed }, r.2)

/-- Fresh analyzer state at the start of a `DecorateAST` call: one open
global frame, the mutable structure state of the input tree, no errors
recorded, program flags as on the input node, ambient context stored
from the parameters. -/
def initialState (p : Program) (structs0 : List (Nat × StructMut))
    (entryPoint : String) : AnalyzerState :=
  { symTable := [[]]
    structs := structs0
    hasErrors := false
    reported := 0
    mulIntrinsicUsed := p.mulIntrinsicUsed
    interlockedIntrinsicsUsed := p.interlockedIntrinsicsUsed
    isInsideEntryPoint := false
    entryPoint := entryPoint
    frontOnEmpty := false
    aliasOverwrites := 0 }

/-- The result of one `DecorateAST` call: the returned boolean, the
number of diagnostics reported during the call, the decorated program
and the final analyzer state (absent for a null program). -/
structure DecorateResult where
  success : Bool
  reported : Nat
  program : Option Program
  finalState : Option AnalyzerState

/-- `DecorateAST`: a null program returns false immediately; otherwise
the parameters are stored, the error flag reset, the program visited,
and the negated error flag returned. The shader target and version
parameters are stored but never consulted in this source file and are
omitted. -/
def DecorateAST (program : Option Program)
    (structs0 : List (Nat × StructMut)) (entryPoint : String) :
    DecorateResult :=
  match program with
  | none =>
    { success := false, reported := 0, program := none, finalState := none }
  | some p =>
    let st0 := initialState p structs0 entryPoint
    let r := VisitProgram p st0
    { success := !r.2.hasErrors
      reported := r.2.reported
      program := some r.1
      finalState := some r.2 }

/-! Traversal collectors: the full names of the function calls a node
visit reaches, and the symbols a node visit may register, mirroring the
visit functions one to one. They are used to characterise the program
flags and the symbol table growth. -/

mutual
/-- Full names of calls visited by an expression. -/
def exprCalls : Expr → List String
  | .call nm args => FullVarIdent nm :: exprsCalls args
  | .literal => []
/-- Full names of calls visited by a list of expressions. -/
def exprsCalls : List Expr → List String
  | [] => []
  | e :: es => exprCalls e ++ exprsCalls es
end

/-- Full names of calls visited by an optional expression. -/
def optExprCalls : Option Expr → List String
  | none => []
  | some e => exprCalls e

/-- Full names of calls visited by a declarator. -/
def varDeclCalls (vd : VarDecl) : List String :=
  exprsCalls vd.arrayDims ++ optExprCalls vd.initializer

/-- Full names of calls visited by a list of declarators. -/
def varDeclsCalls : List VarDecl → List String
  | [] => []
  | d :: ds => varDeclCalls d ++ varDeclsCalls ds

mutual
/-- Full names of calls visited by a variable type. -/
def varTypeCalls : VarType → List String
  | .mk _ none _ => []
  | .mk baseType (some s) _ =>
    match baseType == "" with
    | false => []
    | true => structureCalls s
/-- Full names of calls visited by a structure. -/
def structureCalls : Structure → List String
  | .mk _ _ ms => varDeclStmntsCalls ms
/-- Full names of calls visited by a list of declaration statements. -/
def varDeclStmntsCalls : List VarDeclStmnt → List String
  | [] => []
  | d :: ds => varDeclStmntCalls d ++ varDeclStmntsCalls ds
/-- Full names of calls visited by a declaration statement. -/
def varDeclStmntCalls : VarDeclStmnt → List String
  | .mk vt vds _ _ => varTypeCalls vt ++ varDeclsCalls vds
end

mutual
/-- Full names of calls visited by a statement. -/
def stmntCalls : Stmnt → List String
  | .varDeclStmnt v => varDeclStmntCalls v
  | .ctrlTransferStmnt => []
  | .codeBlockStmnt ss => stmntsCalls ss
  | .exprStmnt e => exprCalls e
/-- Full names of calls visited by a list of statements. -/
def stmntsCalls : List Stmnt → List String
  | [] => []
  | s :: ss => stmntCalls s ++ stmntsCalls ss
end

/-- Full names of calls visited by a function declaration. -/
def functionDeclCalls (f : FunctionDecl) : List String :=
  varTypeCalls f.returnType ++ varDeclStmntsCalls f.parameters ++
    stmntsCalls f.codeBlock

/-- Full names of calls visited by a global declaration. -/
def globalDeclCalls : GlobalDecl → List String
  | .functionDecl f => functionDeclCalls f
  | .bufferDecl b => varDeclStmntsCalls b.members
  | .structDecl s => structureCalls s

/-- Full names of calls visited by a list of global declarations. -/
def globalDeclsCalls : List GlobalDecl → List String
  | [] => []
  | d :: ds => globalDeclCalls d ++ globalDeclsCalls ds

/-- Full names of all function calls the walk of a program reaches. -/
def programCalls (p : Program) : List String :=
  globalDeclsCalls p.globalDecls

mutual
/-- Symbols a variable type visit may register. -/
def varTypeRegs : VarType → List Symbol
  | .mk _ none _ => []
  | .mk baseType (some s) _ =>
    match baseType == "" with
    | false => []
    | true => structureRegs s
/-- Symbols a structure visit may register. -/
def structureRegs : Structure → List Symbol
  | .mk sid name ms =>
    (if name ≠ "" then [Symbol.structSym sid] else []) ++
      varDeclStmntsRegs ms
/-- Symbols a list of declaration statements may register. -/
def varDeclStmntsRegs : List VarDeclStmnt → List Symbol
  | [] => []
  | d :: ds => varDeclStmntRegs d ++ varDeclStmntsRegs ds
/-- Symbols a declaration statement visit may register. -/
def varDeclStmntRegs : VarDeclStmnt → List Symbol
  | .mk vt _ _ _ => varTypeRegs vt
end

mutual
/-- Symbols a statement visit may register. -/
def stmntRegs : Stmnt → List Symbol
  | .varDeclStmnt v => varDeclStmntRegs v
  | .ctrlTransferStmnt => []
  | .codeBlockStmnt ss => stmntsRegs ss
  | .exprStmnt _ => []
/-- Symbols a list of statements may register. -/
def stmntsRegs : List Stmnt → List Symbol
  | [] => []
  | s :: ss => stmntRegs s ++ stmntsRegs ss
end

/-- The step invariant of the recursive visit families (expressions,
types and structures, statements): diagnostics only accumulate, the
error flag is set exactly when a diagnostic was reported in between,
the structure store is untouched, the ambient context is untouched,
each program intrinsic flag is set exactly when it was set before or a
call with a matching full name was visited, the outer symbol table
frames are untouched, and every symbol added to the table is one the
node can register. -/
structure StepFacts (calls : List String) (regs : List Symbol)
    (st st' : AnalyzerState) : Prop where
  rep_le : st.reported ≤ st'.reported
  err_iff : st'.hasErrors = true ↔
    (st.hasErrors = true ∨ st.reported < st'.reported)
  structs_eq : st'.structs = st.structs
  entry_eq : st'.entryPoint = st.entryPoint
  inside_eq : st'.isInsideEntryPoint = st.isInsideEntryPoint
  mul_iff : st'.mulIntrinsicUsed = true ↔
    (st.mulIntrinsicUsed = true ∨ "mul" ∈ calls)
  inter_iff : st'.interlockedIntrinsicsUsed = true ↔
    (st.interlockedIntrinsicsUsed = true ∨
      ∃ n ∈ calls, n ∈ interlockedNames)
  tail_pres : ∀ f rest, st.symTable = f :: rest →
    ∃ f2, st'.symTable = f2 :: rest
  syms_sub : ∀ sym, tableHasSym st'.symTable sym = true →
    tableHasSym st.symTable sym = true ∨ sym ∈ regs

/-- Monotonicity of the structure store shader flags. -/
def FlagMono (sts sts' : List (Nat × StructMut)) : Prop :=
  ∀ i, ((getStruct sts i).isShaderInput = true →
          (getStruct sts' i).isShaderInput = true)
     ∧ ((getStruct sts i).isShaderOutput = true →
          (getStruct sts' i).isShaderOutput = true)

/-- The step invariant of the top-level declaration visits, where the
structure store may change but its shader flags only monotonically. -/
structure TopFacts (calls : List String) (st st' : AnalyzerState) :
    Prop where
  rep_le : st.reported ≤ st'.reported
  err_iff : st'.hasErrors = true ↔
    (st.hasErrors = true ∨ st.reported < st'.reported)
  flag_mono : FlagMono st.structs st'.structs
  entry_eq : st'.entryPoint = st.entryPoint
  mul_iff : st'.mulIntrinsicUsed = true ↔
    (st.mulIntrinsicUsed = true ∨ "mul" ∈ calls)
  inter_iff : st'.interlockedIntrinsicsUsed = true ↔
    (st.interlockedIntrinsicsUsed = true ∨
      ∃ n ∈ calls, n ∈ interlockedNames)
  tail_pres : ∀ f rest, st.symTable = f :: rest →
    ∃ f2, st'.symTable = f2 :: rest

/-! Observables of a decoration call and the concrete example programs
used by counterexamples and witnesses. -/

/-- The alias name of the structure with the given identity in the
final state of a call (absent for a null program). -/
def finalAlias (r : DecorateResult) (i : Nat) : Option String :=
  r.finalState.map (fun st => (getStruct st.structs i).aliasName)

/-- Whether the structure with the given identity carries the
shader-output flag in the final state of a call. -/
def finalShaderOutput (r : DecorateResult) (i : Nat) : Option Bool :=
  r.finalState.map (fun st => (getStruct st.structs i).isShaderOutput)

/-- The number of alias overwrites (a non-empty alias replaced by a
different name) observed during a call. -/
def finalAliasOverwrites (r : DecorateResult) : Option Nat :=
  r.finalState.map (fun st => st.aliasOverwrites)

/-- Whether the call performed the out-of-bounds front read of an empty
declarator list in the VarDeclStmnt rule. -/
def finalFrontOnEmpty (r : DecorateResult) : Option Bool :=
  r.finalState.map (fun st => st.frontOnEmpty)

/-- A structure with one plain member, used by the example programs. -/
def exStruct : Structure :=
  .mk 0 "S"
    [.mk (.mk "float4" none none) [.mk "pos" [] none] false false]

/-- A parameter declaration of the structure type with one declarator
of the given name. -/
def exParam (n : String) : VarDeclStmnt :=
  .mk (.mk "S" none none) [.mk n [] none] false false

/-- Example program for the alias-overwrite counterexample: the entry
function takes two parameters of the same structure type, so the alias
of that structure is assigned twice with different declarator names. -/
def exProgramTwoParams : Program :=
  { globalDecls :=
      [ .structDecl exStruct,
        .functionDecl
          { fid := 0, name := "main", returnType := .mk "S" none none,
            parameters := [exParam "a", exParam "b"], codeBlock := [] } ] }

/-- Example program for the out-of-bounds front read: the entry
function returns the structure type (marking it shader output) and its
body contains a declaration statement of that type with an empty
declarator list. -/
def exProgramEmptyDecl : Program :=
  { globalDecls :=
      [ .structDecl exStruct,
        .functionDecl
          { fid := 0, name := "main", returnType := .mk "S" none none,
            parameters := [],
            codeBlock :=
              [.varDeclStmnt (.mk (.mk "S" none none) [] false false)] } ] }

/-- Example program for entry selection: one function named main (with
a structure return type and one structure parameter) and one function
with a different name. -/
def exProgramTwoFuncs : Program :=
  { globalDecls :=
      [ .structDecl exStruct,
        .functionDecl
          { fid := 0, name := "main", returnType := .mk "S" none none,
            parameters := [exParam "a"], codeBlock := [] },
        .functionDecl
          { fid := 1, name := "other", returnType := .mk "float4" none none,
            parameters := [], codeBlock := [] } ] }

/-- Example program for intrinsic tracking: one function whose body
calls mul and sin. -/
def exProgramMulSin : Program :=
  { globalDecls :=
      [ .functionDecl
          { fid := 0, name := "g", returnType := .mk "float4" none none,
            parameters := [],
            codeBlock :=
              [ .exprStmnt (.call (.mk "mul" none) []),
                .exprStmnt (.call (.mk "sin" none) []) ] } ] }

/-- Example program for intrinsic tracking: one function whose body
calls InterlockedAdd. -/
def exProgramInterlocked : Program :=
  { globalDecls :=
      [ .functionDecl
          { fid := 0, name := "g", returnType := .mk "float4" none none,
            parameters := [],
            codeBlock := [.exprStmnt (.call (.mk "InterlockedAdd" none) [])] } ] }

/-- A concrete analyzer state with one global frame binding the
structure name, used by witnesses. -/
def exState : AnalyzerState :=
  { symTable := [[("S", Symbol.structSym 0)]], structs := [],
    hasErrors := false, reported := 0, mulIntrinsicUsed := false,
    interlockedIntrinsicsUsed := false, isInsideEntryPoint := false,
    entryPoint := "main", frontOnEmpty := false, aliasOverwrites := 0 }

end HTLib


namespace HTLib

/-! Basic lemmas about the store, the symbol table and the invariants. -/

theorem getStruct_updStruct_self (sts : List (Nat × StructMut)) (i : Nat)
    (g : StructMut → StructMut) :
    getStruct (updStruct sts i g) i = g (getStruct sts i) := by
  induction sts with
  | nil => simp [getStruct, updStruct, assocLookup]
  | cons hd tl ih =>
    obtain ⟨j, m⟩ := hd
    by_cases h : j = i
    · subst h
      simp [getStruct, updStruct, assocLookup]
    · simp [getStruct, updStruct, assocLookup, h] at ih ⊢
      exact ih

theorem getStruct_updStruct_other (sts : List (Nat × StructMut))
    (i j : Nat) (g : StructMut → StructMut) (h : j ≠ i) :
    getStruct (updStruct sts i g) j = getStruct sts j := by
  induction sts with
  | nil =>
    have hij : ¬ i = j := fun hh => h hh.symm
    simp [getStruct, updStruct, assocLookup, hij]
  | cons hd tl ih =>
    obtain ⟨k, m⟩ := hd
    by_cases hk : k = i
    · subst hk
      have hkj : k ≠ j := fun hh => h hh.symm
      simp [getStruct, updStruct, assocLookup, hkj]
    · by_cases hj : k = j
      · subst hj
        simp [getStruct, updStruct, assocLookup, hk]
      · simp [getStruct, updStruct, assocLookup, hk, hj] at ih ⊢
        exact ih

theorem FlagMono.monoRefl (sts : List (Nat × StructMut)) : FlagMono sts sts :=
  fun _ => ⟨id, id⟩

theorem FlagMono.monoTrans {a b c : List (Nat × StructMut)}
    (h1 : FlagMono a b) (h2 : FlagMono b c) : FlagMono a c :=
  fun i => ⟨fun h => (h2 i).1 ((h1 i).1 h), fun h => (h2 i).2 ((h1 i).2 h)⟩

theorem StepFacts.stepRefl (st : AnalyzerState) : StepFacts [] [] st st :=
  ⟨Nat.le_refl _, by simp, rfl, rfl, rfl, by simp, by simp,
   fun f rest h => ⟨f, h⟩, fun _ h => Or.inl h⟩

theorem StepFacts.stepTrans {c1 c2 : List String} {r1 r2 : List Symbol}
    {st st' st'' : AnalyzerState}
    (h1 : StepFacts c1 r1 st st') (h2 : StepFacts c2 r2 st' st'') :
    StepFacts (c1 ++ c2) (r1 ++ r2) st st'' := by
  refine ⟨Nat.le_trans h1.rep_le h2.rep_le, ?_, h2.structs_eq.trans h1.structs_eq,
    h2.entry_eq.trans h1.entry_eq, h2.inside_eq.trans h1.inside_eq, ?_, ?_, ?_, ?_⟩
  · have a := h1.rep_le
    have b := h2.rep_le
    rw [h2.err_iff, h1.err_iff]
    constructor
    · rintro ((h | h) | h)
      · exact Or.inl h
      · exact Or.inr (by omega)
      · exact Or.inr (by omega)
    · rintro (h | h)
      · exact Or.inl (Or.inl h)
      · rcases Nat.lt_or_ge st.reported st'.reported with c | c
        · exact Or.inl (Or.inr c)
        · exact Or.inr (by omega)
  · rw [h2.mul_iff, h1.mul_iff]
    simp [List.mem_append, or_assoc]
  · rw [h2.inter_iff, h1.inter_iff]
    constructor
    · rintro ((h | h) | ⟨n, hn, hm⟩)
      · exact Or.inl h
      · obtain ⟨n, hn, hm⟩ := h
        exact Or.inr ⟨n, List.mem_append_left _ hn, hm⟩
      · exact Or.inr ⟨n, List.mem_append_right _ hn, hm⟩
    · rintro (h | ⟨n, hn, hm⟩)
      · exact Or.inl (Or.inl h)
      · rcases List.mem_append.mp hn with h | h
        · exact Or.inl (Or.inr ⟨n, h, hm⟩)
        · exact Or.inr ⟨n, h, hm⟩
  · intro f rest h
    obtain ⟨f2, h2'⟩ := h1.tail_pres f rest h
    exact h2.tail_pres f2 rest h2'
  · intro sym h
    rcases h2.syms_sub sym h with h | h
    · rcases h1.syms_sub sym h with h | h
      · exact Or.inl h
      · exact Or.inr (List.mem_append_left _ h)
    · exact Or.inr (List.mem_append_right _ h)

theorem StepFacts.stepCast {c1 c2 : List String} {r1 r2 : List Symbol}
    {st st' : AnalyzerState} (h : StepFacts c1 r1 st st')
    (hc : ∀ n, n ∈ c1 ↔ n ∈ c2) (hr : ∀ s, s ∈ r1 → s ∈ r2) :
    StepFacts c2 r2 st st' := by
  refine ⟨h.rep_le, h.err_iff, h.structs_eq, h.entry_eq, h.inside_eq, ?_, ?_,
    h.tail_pres, ?_⟩
  · rw [h.mul_iff, hc]
  · rw [h.inter_iff]
    constructor
    · rintro (hh | ⟨n, hn, hm⟩)
      · exact Or.inl hh
      · exact Or.inr ⟨n, (hc n).mp hn, hm⟩
    · rintro (hh | ⟨n, hn, hm⟩)
      · exact Or.inl hh
      · exact Or.inr ⟨n, (hc n).mpr hn, hm⟩
  · intro sym hh
    rcases h.syms_sub sym hh with hh | hh
    · exact Or.inl hh
    · exact Or.inr (hr sym hh)

theorem Error_facts (st : AnalyzerState) : StepFacts [] [] st (Error st) :=
  ⟨Nat.le_succ _, by simp [Error], rfl, rfl, rfl, by simp [Error],
   by simp [Error], fun f rest h => ⟨f, h⟩, fun _ h => Or.inl h⟩

theorem mem_interlockedNames_iff (n : String) :
    n ∈ interlockedNames ↔
      assocLookup intrinsicMap n = some IntrinsicClasses.Interlocked := by
  unfold interlockedNames intrinsicMap
  simp only [assocLookup, List.mem_cons, List.not_mem_nil, or_false]
  split_ifs <;> simp_all [eq_comm]

theorem replaceName_hasSym (f : Frame) (n : String) (s sym : Symbol)
    (h : (replaceName f n s).any (fun e => decide (e.2 = sym)) = true) :
    f.any (fun e => decide (e.2 = sym)) = true ∨ sym = s := by
  induction f with
  | nil => simp [replaceName] at h
  | cons hd tl ih =>
    obtain ⟨m, v⟩ := hd
    by_cases hm : m = n
    · subst hm
      simp [replaceName] at h
      rcases h with h | h
      · exact Or.inr h.symm
      · simp [h]
    · simp [replaceName, hm] at h
      rcases h with h | h
      · simp [h]
      · rcases ih (by simpa using h) with h2 | h2
        · simp at h2
          simp [h2]
        · exact Or.inr h2

theorem registerTable_shape (f : Frame) (rest : List Frame) (n : String)
    (s : Symbol) (ovr : Symbol → Bool) (tbl : SymTable)
    (h : registerTable (f :: rest) n s ovr = some tbl) :
    ∃ f2, tbl = f2 :: rest := by
  simp only [registerTable] at h
  cases hl : lookupName f n with
  | none =>
    rw [hl] at h
    exact ⟨(n, s) :: f, by simpa using h.symm⟩
  | some old =>
    simp only [hl] at h
    by_cases hv : ovr old = true
    · rw [if_pos hv] at h
      exact ⟨replaceName f n s, by simpa using h.symm⟩
    · rw [if_neg hv] at h
      cases h

theorem registerTable_syms (tbl tbl' : SymTable) (n : String) (s : Symbol)
    (ovr : Symbol → Bool) (sym : Symbol)
    (h : registerTable tbl n s ovr = some tbl')
    (hsym : tableHasSym tbl' sym = true) :
    tableHasSym tbl sym = true ∨ sym = s := by
  cases tbl with
  | nil => simp [registerTable] at h
  | cons f rest =>
    simp only [registerTable] at h
    cases hl : lookupName f n with
    | none =>
      rw [hl] at h
      obtain rfl : ((n, s) :: f) :: rest = tbl' := by simpa using h
      simp only [tableHasSym, List.any_cons] at hsym ⊢
      rcases Bool.or_eq_true_iff.mp hsym with h2 | h2
      · rcases Bool.or_eq_true_iff.mp h2 with h3 | h3
        · simp only [decide_eq_true_eq] at h3
          exact Or.inr h3.symm
        · exact Or.inl (by simp [h3])
      · exact Or.inl (by simp [h2])
    | some old =>
      simp only [hl] at h
      by_cases hv : ovr old = true
      · rw [if_pos hv] at h
        obtain rfl : replaceName f n s :: rest = tbl' := by simpa using h
        simp only [tableHasSym, List.any_cons] at hsym ⊢
        rcases Bool.or_eq_true_iff.mp hsym with h2 | h2
        · rcases replaceName_hasSym f n s sym h2 with h3 | h3
          · exact Or.inl (by simp [h3])
          · exact Or.inr h3
        · exact Or.inl (by simp [h2])
      · rw [if_neg hv] at h
        cases h

theorem Register_facts (st : AnalyzerState) (n : String) (s : Symbol)
    (ovr : Symbol → Bool) : StepFacts [] [s] st (Register st n s ovr) := by
  unfold Register
  cases htbl : registerTable st.symTable n s ovr with
  | none => exact (Error_facts st).stepCast (fun _ => Iff.rfl) (by simp)
  | some tbl =>
    refine ⟨Nat.le_refl _, by simp, rfl, rfl, rfl, by simp, by simp, ?_, ?_⟩
    · intro f rest h
      rw [h] at htbl
      obtain ⟨f2, hf2⟩ := registerTable_shape f rest n s ovr tbl htbl
      exact ⟨f2, by simp [hf2]⟩
    · intro sym hsym
      have hsym' : tableHasSym tbl sym = true := by simpa using hsym
      rcases registerTable_syms st.symTable tbl n s ovr sym htbl hsym' with
        h | h
      · exact Or.inl h
      · exact Or.inr (by simp [h])

theorem callFlagStep_facts (n : String) (st : AnalyzerState) :
    StepFacts [n] [] st
      (if n = "mul" then { st with mulIntrinsicUsed := true }
       else
         match assocLookup intrinsicMap n with
         | some .Interlocked => { st with interlockedIntrinsicsUsed := true }
         | none => st) := by
  split_ifs with h
  · subst h
    refine ⟨Nat.le_refl _, by simp, rfl, rfl, rfl, by simp, ?_,
      fun f r hh => ⟨f, hh⟩, fun _ hh => Or.inl hh⟩
    constructor
    · exact Or.inl
    · rintro (hh | ⟨m, hm, hmem⟩)
      · exact hh
      · simp only [List.mem_singleton] at hm
        subst hm
        exact absurd hmem (by decide)
  · cases hl : assocLookup intrinsicMap n with
    | none =>
      show StepFacts [n] [] st st
      refine ⟨Nat.le_refl _, by simp, rfl, rfl, rfl, ?_, ?_,
        fun f r hh => ⟨f, hh⟩, fun _ hh => Or.inl hh⟩
      · constructor
        · exact Or.inl
        · rintro (hh | hh)
          · exact hh
          · simp only [List.mem_singleton] at hh
            exact absurd hh.symm h
      · constructor
        · exact Or.inl
        · rintro (hh | ⟨m, hm, hmem⟩)
          · exact hh
          · simp only [List.mem_singleton] at hm
            subst hm
            rw [mem_interlockedNames_iff, hl] at hmem
            cases hmem
    | some c =>
      cases c
      show StepFacts [n] [] st { st with interlockedIntrinsicsUsed := true }
      refine ⟨Nat.le_refl _, by simp, rfl, rfl, rfl, ?_, ?_,
        fun f r hh => ⟨f, hh⟩, fun _ hh => Or.inl hh⟩
      · constructor
        · exact Or.inl
        · rintro (hh | hh)
          · exact hh
          · simp only [List.mem_singleton] at hh
            exact absurd hh.symm h
      · constructor
        · intro hh
          refine Or.inr ⟨n, by simp, ?_⟩
          rw [mem_interlockedNames_iff, hl]
        · intro hh
          simp

mutual
theorem VisitExpr_facts (e : Expr) (st : AnalyzerState) :
    StepFacts (exprCalls e) [] st (VisitExpr e st) := by
  cases e with
  | literal => exact StepFacts.stepRefl st
  | call nm args =>
    have h1 := callFlagStep_facts (FullVarIdent nm) st
    have h2 := VisitExprs_facts args
      (if FullVarIdent nm = "mul" then { st with mulIntrinsicUsed := true }
       else
         match assocLookup intrinsicMap (FullVarIdent nm) with
         | some .Interlocked => { st with interlockedIntrinsicsUsed := true }
         | none => st)
    exact (h1.stepTrans h2).stepCast (by simp [exprCalls]) (by simp)
theorem VisitExprs_facts (es : List Expr) (st : AnalyzerState) :
    StepFacts (exprsCalls es) [] st (VisitExprs es st) := by
  cases es with
  | nil => exact StepFacts.stepRefl st
  | cons e es =>
    have h1 := VisitExpr_facts e st
    have h2 := VisitExprs_facts es (VisitExpr e st)
    exact (h1.stepTrans h2).stepCast (by simp [exprsCalls]) (by simp)
end

theorem VisitOptExpr_facts (oe : Option Expr) (st : AnalyzerState) :
    StepFacts (optExprCalls oe) [] st (VisitOptExpr oe st) := by
  cases oe with
  | none => exact StepFacts.stepRefl st
  | some e => exact VisitExpr_facts e st

theorem VisitVarDecl_facts (vd : VarDecl) (st : AnalyzerState) :
    StepFacts (varDeclCalls vd) [] st (VisitVarDecl vd st) := by
  have h1 := VisitExprs_facts vd.arrayDims st
  have h2 := VisitOptExpr_facts vd.initializer (VisitExprs vd.arrayDims st)
  exact (h1.stepTrans h2).stepCast (by simp [varDeclCalls]) (by simp)

theorem VisitVarDecls_facts (vds : List VarDecl) (st : AnalyzerState) :
    StepFacts (varDeclsCalls vds) [] st (VisitVarDecls vds st) := by
  induction vds generalizing st with
  | nil => exact StepFacts.stepRefl st
  | cons d ds ih =>
    have h1 := VisitVarDecl_facts d st
    have h2 := ih (VisitVarDecl d st)
    exact (h1.stepTrans h2).stepCast (by simp [varDeclsCalls]) (by simp)

theorem frontFlag_facts (st : AnalyzerState) :
    StepFacts [] [] st { st with frontOnEmpty := true } :=
  ⟨Nat.le_refl _, by simp, rfl, rfl, rfl, by simp, by simp,
   fun f r h => ⟨f, h⟩, fun _ h => Or.inl h⟩

mutual
theorem VisitVarType_facts (vt : VarType) (st : AnalyzerState) :
    StepFacts (varTypeCalls vt) (varTypeRegs vt) st (VisitVarType vt st).2 := by
  cases vt with
  | mk baseType structType symbolRef =>
    cases structType with
    | none =>
      cases hb : baseType == "" with
      | false =>
        simp only [VisitVarType, varTypeCalls, varTypeRegs, hb]
        split
        · exact StepFacts.stepRefl st
        · exact StepFacts.stepRefl st
      | true =>
        simp only [VisitVarType, varTypeCalls, varTypeRegs, hb]
        exact Error_facts st
    | some s =>
      cases hb : baseType == "" with
      | false =>
        simp only [VisitVarType, varTypeCalls, varTypeRegs, hb]
        split
        · exact StepFacts.stepRefl st
        · exact StepFacts.stepRefl st
      | true =>
        simp only [VisitVarType, varTypeCalls, varTypeRegs, hb]
        exact VisitStructure_facts s st
termination_by sizeOf vt
theorem VisitStructure_facts (s : Structure) (st : AnalyzerState) :
    StepFacts (structureCalls s) (structureRegs s) st (VisitStructure s st).2 := by
  cases s with
  | mk sid name ms =>
    simp only [VisitStructure]
    split
    · next hn =>
      have h1 := Register_facts st name (.structSym sid) structDeclOverride
      have h2 := VisitVarDeclStmnts_facts ms
        (Register st name (.structSym sid) structDeclOverride)
      exact (h1.stepTrans h2).stepCast (by simp [structureCalls])
        (by simp [structureRegs, hn])
    · next hn =>
      have h2 := VisitVarDeclStmnts_facts ms st
      exact h2.stepCast (by simp [structureCalls]) (by simp [structureRegs, hn])
termination_by sizeOf s
theorem VisitVarDeclStmnts_facts (ds : List VarDeclStmnt) (st : AnalyzerState) :
    StepFacts (varDeclStmntsCalls ds) (varDeclStmntsRegs ds) st
      (VisitVarDeclStmnts ds st).2 := by
  cases ds with
  | nil => exact StepFacts.stepRefl st
  | cons d ds =>
    have h1 := VisitVarDeclStmnt_facts d st
    have h2 := VisitVarDeclStmnts_facts ds (VisitVarDeclStmnt d st).2
    exact (h1.stepTrans h2).stepCast (by simp [varDeclStmntsCalls])
      (by simp [varDeclStmntsRegs])
termination_by sizeOf ds
theorem VisitVarDeclStmnt_facts (d : VarDeclStmnt) (st : AnalyzerState) :
    StepFacts (varDeclStmntCalls d) (varDeclStmntRegs d) st
      (VisitVarDeclStmnt d st).2 := by
  cases d with
  | mk varType varDecls inF outF =>
    have h1 := VisitVarType_facts varType st
    have h2 := VisitVarDecls_facts varDecls (VisitVarType varType st).2
    have h12 := h1.stepTrans h2
    have hcast : ∀ (st2 : AnalyzerState) (c : List String) (r : List Symbol),
        StepFacts c r st st2 →
        (∀ n, n ∈ c ↔ n ∈ varTypeCalls varType ++ varDeclsCalls varDecls) →
        (∀ s, s ∈ r → s ∈ varTypeRegs varType) →
        StepFacts (varDeclStmntCalls (.mk varType varDecls inF outF))
          (varDeclStmntRegs (.mk varType varDecls inF outF)) st st2 := by
      intro st2 c r h hc hr
      refine h.stepCast ?_ ?_
      · intro n
        rw [hc n]
        simp [varDeclStmntCalls]
      · intro s hs
        have := hr s hs
        simpa [varDeclStmntRegs] using this
    simp only [VisitVarDeclStmnt]
    split
    · next hcond =>
      have hempty : varDecls = [] := by
        have := (Bool.and_eq_true _ _).mp hcond
        simpa [List.isEmpty_iff] using this.2
      subst hempty
      simp only [List.head?_nil]
      split
      · next sid heq =>
        split
        · next hflags =>
          exact hcast _ _ _ (h12.stepTrans (frontFlag_facts _)) (by simp) (by simp)
        · next hflags => exact hcast _ _ _ h12 (by simp) (by simp)
      · next heq => exact hcast _ _ _ h12 (by simp) (by simp)
    · next hcond => exact hcast _ _ _ h12 (by simp) (by simp)
termination_by sizeOf d
end


theorem tableHasSym_tail (tbl : SymTable) (sym : Symbol)
    (h : tableHasSym tbl.tail sym = true) : tableHasSym tbl sym = true := by
  cases tbl with
  | nil => simpa using h
  | cons f rest =>
    simp only [List.tail_cons] at h
    simp only [tableHasSym, List.any_cons] at h ⊢
    simp [h]

mutual
theorem VisitStmnt_facts (s : Stmnt) (st : AnalyzerState) :
    StepFacts (stmntCalls s) (stmntRegs s) st (VisitStmnt s st).2 := by
  cases s with
  | varDeclStmnt v =>
    exact (VisitVarDeclStmnt_facts v st).stepCast (by simp [stmntCalls])
      (by simp [stmntRegs])
  | ctrlTransferStmnt =>
    exact (StepFacts.stepRefl st).stepCast (by simp [stmntCalls]) (by simp [stmntRegs])
  | exprStmnt e =>
    exact (VisitExpr_facts e st).stepCast (by simp [stmntCalls])
      (by simp [stmntRegs])
  | codeBlockStmnt ss =>
    have h := VisitStmnts_facts ss (OpenScope st)
    have h2 : StepFacts (stmntsCalls ss) (stmntsRegs ss) st
        (VisitStmnt (.codeBlockStmnt ss) st).2 := by
      refine ⟨h.rep_le, h.err_iff, h.structs_eq, h.entry_eq, h.inside_eq,
        h.mul_iff, h.inter_iff, ?_, ?_⟩
      · intro f rest hst
        obtain ⟨f2, hmid⟩ := h.tail_pres [] (f :: rest)
          (by simp [OpenScope, hst])
        exact ⟨f, by simp [VisitStmnt, CloseScope, hmid, hst]⟩
      · intro sym hsym
        have hmid : tableHasSym (VisitStmnts ss (OpenScope st)).2.symTable sym
            = true := by
          apply tableHasSym_tail
          simpa [VisitStmnt, CloseScope] using hsym
        rcases h.syms_sub sym hmid with hh | hh
        · left
          simpa [OpenScope, tableHasSym] using hh
        · right
          exact hh
    exact h2.stepCast (by simp [stmntCalls]) (by simp [stmntRegs])
termination_by sizeOf s
theorem VisitStmnts_facts (ss : List Stmnt) (st : AnalyzerState) :
    StepFacts (stmntsCalls ss) (stmntsRegs ss) st (VisitStmnts ss st).2 := by
  cases ss with
  | nil => exact StepFacts.stepRefl st
  | cons s ss =>
    have h1 := VisitStmnt_facts s st
    have h2 := VisitStmnts_facts ss (VisitStmnt s st).2
    exact (h1.stepTrans h2).stepCast (by simp [stmntsCalls]) (by simp [stmntsRegs])
termination_by sizeOf ss
end

theorem VisitCodeBlock_facts (ss : List Stmnt) (st : AnalyzerState) :
    StepFacts (stmntsCalls ss) (stmntsRegs ss) st (VisitCodeBlock ss st).2 :=
  (VisitStmnt_facts (.codeBlockStmnt ss) st).stepCast
    (by simp [stmntCalls]) (by simp [stmntRegs])

theorem VisitCodeBlock_symTable (ss : List Stmnt) (st : AnalyzerState) :
    (VisitCodeBlock ss st).2.symTable = st.symTable := by
  have h := VisitStmnts_facts ss (OpenScope st)
  obtain ⟨f2, hmid⟩ := h.tail_pres [] st.symTable (by simp [OpenScope])
  simp [VisitCodeBlock, CloseScope, hmid]

theorem StepFacts.toTop {c : List String} {r : List Symbol}
    {st st' : AnalyzerState} (h : StepFacts c r st st') : TopFacts c st st' :=
  ⟨h.rep_le, h.err_iff, by rw [h.structs_eq]; exact FlagMono.monoRefl _,
   h.entry_eq, h.mul_iff, h.inter_iff, h.tail_pres⟩

theorem TopFacts.topTrans {c1 c2 : List String} {st st' st'' : AnalyzerState}
    (h1 : TopFacts c1 st st') (h2 : TopFacts c2 st' st'') :
    TopFacts (c1 ++ c2) st st'' := by
  refine ⟨Nat.le_trans h1.rep_le h2.rep_le, ?_,
    h1.flag_mono.monoTrans h2.flag_mono, h2.entry_eq.trans h1.entry_eq,
    ?_, ?_, ?_⟩
  · have a := h1.rep_le
    have b := h2.rep_le
    rw [h2.err_iff, h1.err_iff]
    constructor
    · rintro ((h | h) | h)
      · exact Or.inl h
      · exact Or.inr (by omega)
      · exact Or.inr (by omega)
    · rintro (h | h)
      · exact Or.inl (Or.inl h)
      · rcases Nat.lt_or_ge st.reported st'.reported with c | c
        · exact Or.inl (Or.inr c)
        · exact Or.inr (by omega)
  · rw [h2.mul_iff, h1.mul_iff]
    simp [List.mem_append, or_assoc]
  · rw [h2.inter_iff, h1.inter_iff]
    constructor
    · rintro ((h | h) | ⟨n, hn, hm⟩)
      · exact Or.inl h
      · obtain ⟨n, hn, hm⟩ := h
        exact Or.inr ⟨n, List.mem_append_left _ hn, hm⟩
      · exact Or.inr ⟨n, List.mem_append_right _ hn, hm⟩
    · rintro (h | ⟨n, hn, hm⟩)
      · exact Or.inl (Or.inl h)
      · rcases List.mem_append.mp hn with h | h
        · exact Or.inl (Or.inr ⟨n, h, hm⟩)
        · exact Or.inr ⟨n, h, hm⟩
  · intro f rest h
    obtain ⟨f2, hmid⟩ := h1.tail_pres f rest h
    exact h2.tail_pres f2 rest hmid

theorem TopFacts.topCast {c1 c2 : List String} {st st' : AnalyzerState}
    (h : TopFacts c1 st st') (hc : ∀ n, n ∈ c1 ↔ n ∈ c2) :
    TopFacts c2 st st' := by
  refine ⟨h.rep_le, h.err_iff, h.flag_mono, h.entry_eq, ?_, ?_, h.tail_pres⟩
  · rw [h.mul_iff, hc]
  · rw [h.inter_iff]
    constructor
    · rintro (hh | ⟨n, hn, hm⟩)
      · exact Or.inl hh
      · exact Or.inr ⟨n, (hc n).mp hn, hm⟩
    · rintro (hh | ⟨n, hn, hm⟩)
      · exact Or.inl hh
      · exact Or.inr ⟨n, (hc n).mpr hn, hm⟩

theorem addStructFlag_mono (st : AnalyzerState) (i : Nat) (b : Bool) :
    FlagMono st.structs (addStructFlag st i b).structs := by
  intro j
  by_cases hj : j = i
  · subst hj
    simp only [addStructFlag, getStruct_updStruct_self]
    cases b <;> simp
  · simp only [addStructFlag, getStruct_updStruct_other _ _ _ _ hj]
    exact ⟨id, id⟩

theorem setAliasName_mono (st : AnalyzerState) (i : Nat) (n : String) :
    FlagMono st.structs (setAliasName st i n).structs := by
  intro j
  by_cases hj : j = i
  · subst hj
    simp only [setAliasName, getStruct_updStruct_self]
    exact ⟨id, id⟩
  · simp only [setAliasName, getStruct_updStruct_other _ _ _ _ hj]
    exact ⟨id, id⟩

theorem sameShape_top (st st' : AnalyzerState)
    (hrep : st'.reported = st.reported) (herr : st'.hasErrors = st.hasErrors)
    (hflag : FlagMono st.structs st'.structs)
    (hentry : st'.entryPoint = st.entryPoint)
    (hmul : st'.mulIntrinsicUsed = st.mulIntrinsicUsed)
    (hinter : st'.interlockedIntrinsicsUsed = st.interlockedIntrinsicsUsed)
    (htbl : st'.symTable = st.symTable) : TopFacts [] st st' := by
  refine ⟨by omega, by simp [herr, hrep], hflag, hentry,
    by simp [hmul], by simp [hinter], ?_⟩
  intro f rest h
  exact ⟨f, by rw [htbl, h]⟩

theorem DecorateEntryInOutType_facts (vt : VarType) (b : Bool)
    (st : AnalyzerState) : TopFacts [] st (DecorateEntryInOutType vt b st) := by
  unfold DecorateEntryInOutType
  have step1 : ∀ (st1 : AnalyzerState),
      TopFacts [] st1
        (match vt.structType with
         | some s => addStructFlag st1 s.sid b
         | none => st1) := by
    intro st1
    cases vt.structType with
    | some s =>
      exact sameShape_top _ _ rfl rfl (addStructFlag_mono st1 s.sid b) rfl rfl
        rfl rfl
    | none => exact sameShape_top _ _ rfl rfl (FlagMono.monoRefl _) rfl rfl rfl rfl
  have step2 : ∀ (st1 : AnalyzerState),
      TopFacts [] st1
        (match vt.symbolRef with
         | some (.structSym sid) => addStructFlag st1 sid b
         | _ => st1) := by
    intro st1
    cases hsr : vt.symbolRef with
    | some sym =>
      cases sym with
      | structSym sid =>
        exact sameShape_top _ _ rfl rfl (addStructFlag_mono st1 sid b) rfl rfl
          rfl rfl
      | funcSym fid =>
        exact sameShape_top _ _ rfl rfl (FlagMono.monoRefl _) rfl rfl rfl rfl
    | none => exact sameShape_top _ _ rfl rfl (FlagMono.monoRefl _) rfl rfl rfl rfl
  exact ((step1 st).topTrans (step2 _)).topCast (by simp)

theorem DecorateEntryInOutStmnt_facts (d : VarDeclStmnt) (b : Bool)
    (st : AnalyzerState) :
    TopFacts [] st (DecorateEntryInOutStmnt d b st).2 := by
  cases d with
  | mk varType varDecls inF outF =>
    simp only [DecorateEntryInOutStmnt]
    have step1 : ∀ (st1 : AnalyzerState),
        TopFacts [] st1
          (match varType.structType with
           | some s => addStructFlag st1 s.sid b
           | none => st1) := by
      intro st1
      cases varType.structType with
      | some s =>
        exact sameShape_top _ _ rfl rfl (addStructFlag_mono st1 s.sid b) rfl
          rfl rfl rfl
      | none =>
        exact sameShape_top _ _ rfl rfl (FlagMono.monoRefl _) rfl rfl rfl rfl
    have step2 : ∀ (st1 : AnalyzerState),
        TopFacts [] st1
          (match varType.symbolRef with
           | some (.structSym sid) =>
             match varDecls.head? with
             | some vd => setAliasName (addStructFlag st1 sid b) sid vd.name
             | none => addStructFlag st1 sid b
           | _ => st1) := by
      intro st1
      cases varType.symbolRef with
      | some sym =>
        cases sym with
        | structSym sid =>
          cases varDecls.head? with
          | some vd =>
            refine sameShape_top _ _ rfl rfl ?_ rfl rfl rfl rfl
            exact (addStructFlag_mono st1 sid b).monoTrans
              (setAliasName_mono _ sid _)
          | none =>
            exact sameShape_top _ _ rfl rfl (addStructFlag_mono st1 sid b) rfl
              rfl rfl rfl
        | funcSym fid =>
          exact sameShape_top _ _ rfl rfl (FlagMono.monoRefl _) rfl rfl rfl rfl
      | none =>
        exact sameShape_top _ _ rfl rfl (FlagMono.monoRefl _) rfl rfl rfl rfl
    exact ((step1 st).topTrans (step2 _)).topCast (by simp)

theorem DecorateParams_facts (ps : List VarDeclStmnt) (st : AnalyzerState) :
    TopFacts [] st (DecorateParams ps st).2 := by
  induction ps generalizing st with
  | nil => exact (StepFacts.stepRefl st).toTop
  | cons p ps ih =>
    have h1 := DecorateEntryInOutStmnt_facts p true st
    have h2 := ih (DecorateEntryInOutStmnt p true st).2
    exact (h1.topTrans h2).topCast (by simp)


theorem setInsideTop (st : AnalyzerState) (b : Bool) :
    TopFacts [] st { st with isInsideEntryPoint := b } :=
  sameShape_top _ _ rfl rfl (FlagMono.monoRefl _) rfl rfl rfl rfl

theorem VisitFunctionDecl_facts (f : FunctionDecl) (st : AnalyzerState) :
    TopFacts (functionDeclCalls f) st (VisitFunctionDecl f st).2 := by
  have h1 := (Register_facts st f.name (.funcSym f.fid)
    functionDeclOverride).toTop
  have h2 := (VisitVarType_facts f.returnType (Register st f.name (.funcSym f.fid) functionDeclOverride)).toTop
  have h3 := (VisitVarDeclStmnts_facts f.parameters (VisitVarType f.returnType (Register st f.name (.funcSym f.fid) functionDeclOverride)).2).toTop
  have hA := (h1.topTrans h2).topTrans h3
  simp only [VisitFunctionDecl]
  split
  · next hE =>
    have hB := DecorateEntryInOutType_facts (VisitVarType f.returnType (Register st f.name (.funcSym f.fid) functionDeclOverride)).1 false (VisitVarDeclStmnts f.parameters (VisitVarType f.returnType (Register st f.name (.funcSym f.fid) functionDeclOverride)).2).2
    have hC := DecorateParams_facts (VisitVarDeclStmnts f.parameters (VisitVarType f.returnType (Register st f.name (.funcSym f.fid) functionDeclOverride)).2).1 (DecorateEntryInOutType (VisitVarType f.returnType (Register st f.name (.funcSym f.fid) functionDeclOverride)).1 false (VisitVarDeclStmnts f.parameters (VisitVarType f.returnType (Register st f.name (.funcSym f.fid) functionDeclOverride)).2).2)
    have hD := setInsideTop (DecorateParams (VisitVarDeclStmnts f.parameters (VisitVarType f.returnType (Register st f.name (.funcSym f.fid) functionDeclOverride)).2).1 (DecorateEntryInOutType (VisitVarType f.returnType (Register st f.name (.funcSym f.fid) functionDeclOverride)).1 false (VisitVarDeclStmnts f.parameters (VisitVarType f.returnType (Register st f.name (.funcSym f.fid) functionDeclOverride)).2).2)).2 (decide (f.name = (Register st f.name (.funcSym f.fid) functionDeclOverride).entryPoint))
    have hE2 := (VisitCodeBlock_facts f.codeBlock { (DecorateParams (VisitVarDeclStmnts f.parameters (VisitVarType f.returnType (Register st f.name (.funcSym f.fid) functionDeclOverride)).2).1 (DecorateEntryInOutType (VisitVarType f.returnType (Register st f.name (.funcSym f.fid) functionDeclOverride)).1 false (VisitVarDeclStmnts f.parameters (VisitVarType f.returnType (Register st f.name (.funcSym f.fid) functionDeclOverride)).2).2)).2 with isInsideEntryPoint := (decide (f.name = (Register st f.name (.funcSym f.fid) functionDeclOverride).entryPoint)) }).toTop
    have hF := setInsideTop (VisitCodeBlock f.codeBlock { (DecorateParams (VisitVarDeclStmnts f.parameters (VisitVarType f.returnType (Register st f.name (.funcSym f.fid) functionDeclOverride)).2).1 (DecorateEntryInOutType (VisitVarType f.returnType (Register st f.name (.funcSym f.fid) functionDeclOverride)).1 false (VisitVarDeclStmnts f.parameters (VisitVarType f.returnType (Register st f.name (.funcSym f.fid) functionDeclOverride)).2).2)).2 with isInsideEntryPoint := (decide (f.name = (Register st f.name (.funcSym f.fid) functionDeclOverride).entryPoint)) }).2 false
    exact (((((hA.topTrans hB).topTrans hC).topTrans hD).topTrans hE2).topTrans hF).topCast
      (by simp [functionDeclCalls])
  · next hE =>
    have hD := setInsideTop (VisitVarDeclStmnts f.parameters (VisitVarType f.returnType (Register st f.name (.funcSym f.fid) functionDeclOverride)).2).2 (decide (f.name = (Register st f.name (.funcSym f.fid) functionDeclOverride).entryPoint))
    have hE2 := (VisitCodeBlock_facts f.codeBlock { (VisitVarDeclStmnts f.parameters (VisitVarType f.returnType (Register st f.name (.funcSym f.fid) functionDeclOverride)).2).2 with isInsideEntryPoint := (decide (f.name = (Register st f.name (.funcSym f.fid) functionDeclOverride).entryPoint)) }).toTop
    have hF := setInsideTop (VisitCodeBlock f.codeBlock { (VisitVarDeclStmnts f.parameters (VisitVarType f.returnType (Register st f.name (.funcSym f.fid) functionDeclOverride)).2).2 with isInsideEntryPoint := (decide (f.name = (Register st f.name (.funcSym f.fid) functionDeclOverride).entryPoint)) }).2 false
    exact (((hA.topTrans hD).topTrans hE2).topTrans hF).topCast
      (by simp [functionDeclCalls])

theorem VisitBufferDecl_facts (b : BufferDecl) (st : AnalyzerState) :
    TopFacts (varDeclStmntsCalls b.members) st (VisitBufferDecl b st).2 := by
  simp only [VisitBufferDecl]
  split
  · next hk =>
    have h1 := (Error_facts st).toTop
    have h2 := (VisitVarDeclStmnts_facts b.members (Error st)).toTop
    exact (h1.topTrans h2).topCast (by simp)
  · next hk =>
    exact (VisitVarDeclStmnts_facts b.members st).toTop

theorem VisitGlobalDecl_facts (d : GlobalDecl) (st : AnalyzerState) :
    TopFacts (globalDeclCalls d) st (VisitGlobalDecl d st).2 := by
  cases d with
  | functionDecl f =>
    exact (VisitFunctionDecl_facts f st).topCast (by simp [globalDeclCalls])
  | bufferDecl b =>
    exact (VisitBufferDecl_facts b st).topCast (by simp [globalDeclCalls])
  | structDecl s =>
    exact ((VisitStructure_facts s st).toTop).topCast (by simp [globalDeclCalls])

theorem VisitGlobalDecls_facts (ds : List GlobalDecl) (st : AnalyzerState) :
    TopFacts (globalDeclsCalls ds) st (VisitGlobalDecls ds st).2 := by
  induction ds generalizing st with
  | nil => exact (StepFacts.stepRefl st).toTop
  | cons d ds ih =>
    have h1 := VisitGlobalDecl_facts d st
    have h2 := ih (VisitGlobalDecl d st).2
    exact (h1.topTrans h2).topCast (by simp [globalDeclsCalls])

theorem VisitProgram_facts (p : Program) (st : AnalyzerState) :
    TopFacts (programCalls p) st (VisitProgram p st).2 :=
  (VisitGlobalDecls_facts p.globalDecls st).topCast (by simp [programCalls])


/-! Claim theorems. -/

/-- C1 (counterexample): a call on a null program returns false while
zero diagnostics were reported during that call, contradicting the
claim that the returned boolean is false only when at least one
diagnostic was reported. -/
theorem C1_counterexample_null_program :
    (DecorateAST none [] "main").success = false
    ∧ (DecorateAST none [] "main").reported = 0 :=
  ⟨rfl, rfl⟩

/-- C1 (amended): for every call with a non-null program the returned
boolean is false exactly when at least one diagnostic was reported
during that call; a call with a null program returns false with zero
diagnostics reported. -/
theorem C1_success_iff_no_diagnostics (p : Program)
    (structs0 : List (Nat × StructMut)) (entryPoint : String) :
    ((DecorateAST (some p) structs0 entryPoint).success = false ↔
      0 < (DecorateAST (some p) structs0 entryPoint).reported)
    ∧ (DecorateAST none structs0 entryPoint).success = false
    ∧ (DecorateAST none structs0 entryPoint).reported = 0 := by
  refine ⟨?_, rfl, rfl⟩
  have h := VisitProgram_facts p (initialState p structs0 entryPoint)
  have herr := h.err_iff
  have h0 : (initialState p structs0 entryPoint).hasErrors = false := rfl
  have h1 : (initialState p structs0 entryPoint).reported = 0 := rfl
  rw [h0, h1] at herr
  simp only [Bool.false_eq_true, false_or] at herr
  have hs : (DecorateAST (some p) structs0 entryPoint).success =
      !(VisitProgram p (initialState p structs0 entryPoint)).2.hasErrors := rfl
  have hr : (DecorateAST (some p) structs0 entryPoint).reported =
      (VisitProgram p (initialState p structs0 entryPoint)).2.reported := rfl
  have hb : ∀ b : Bool, ((!b) = false ↔ b = true) := by decide
  rw [hs, hr, hb]
  exact herr

/-- C5: after decorating a program whose intrinsic flags start clear,
the cross-product flag is set exactly when some visited call has full
name mul, and the interlocked flag exactly when some visited call has
one of the eight interlocked full names. -/
theorem C5_intrinsic_flags (p : Program) (structs0 : List (Nat × StructMut))
    (entryPoint : String) (p' : Program)
    (hmul0 : p.mulIntrinsicUsed = false)
    (hint0 : p.interlockedIntrinsicsUsed = false)
    (hp : (DecorateAST (some p) structs0 entryPoint).program = some p') :
    (p'.mulIntrinsicUsed = true ↔ "mul" ∈ programCalls p)
    ∧ (p'.interlockedIntrinsicsUsed = true ↔
        ∃ n ∈ programCalls p, n ∈ interlockedNames) := by
  have hp' : p' = (VisitProgram p (initialState p structs0 entryPoint)).1 := by
    have hx : (DecorateAST (some p) structs0 entryPoint).program =
        some (VisitProgram p (initialState p structs0 entryPoint)).1 := rfl
    rw [hx] at hp
    exact (Option.some_inj.mp hp).symm
  subst hp'
  have h := VisitProgram_facts p (initialState p structs0 entryPoint)
  have hm := h.mul_iff
  have hi := h.inter_iff
  have h0 : (initialState p structs0 entryPoint).mulIntrinsicUsed =
      p.mulIntrinsicUsed := rfl
  have h1 : (initialState p structs0 entryPoint).interlockedIntrinsicsUsed =
      p.interlockedIntrinsicsUsed := rfl
  rw [h0, hmul0] at hm
  rw [h1, hint0] at hi
  simp only [Bool.false_eq_true, false_or] at hm hi
  have hpm : (VisitProgram p
        (initialState p structs0 entryPoint)).1.mulIntrinsicUsed =
      (VisitProgram p
        (initialState p structs0 entryPoint)).2.mulIntrinsicUsed := rfl
  have hpi : (VisitProgram p
        (initialState p structs0 entryPoint)).1.interlockedIntrinsicsUsed =
      (VisitProgram p
        (initialState p structs0 entryPoint)).2.interlockedIntrinsicsUsed := rfl
  rw [hpm, hpi]
  exact ⟨hm, hi⟩

/-- Witness for C5: the mul-and-sin program sets the cross-product flag
and not the interlocked flag (and the call with full name mul is indeed
among the visited calls); the InterlockedAdd program sets the
interlocked flag and not the cross-product flag. -/
theorem C5_intrinsic_flags_witness :
    ∃ p1 : Program,
      (DecorateAST (some exProgramMulSin) [] "main").program = some p1
      ∧ p1.mulIntrinsicUsed = true
      ∧ p1.interlockedIntrinsicsUsed = false
      ∧ "mul" ∈ programCalls exProgramMulSin
      ∧ ∃ p2 : Program,
          (DecorateAST (some exProgramInterlocked) [] "main").program = some p2
          ∧ p2.interlockedIntrinsicsUsed = true
          ∧ p2.mulIntrinsicUsed = false := by
  refine ⟨_, rfl, rfl, rfl, ?_, _, rfl, rfl, rfl⟩
  exact (C5_intrinsic_flags exProgramMulSin [] "main" _ rfl rfl rfl).1.mp rfl


/-! Commutation of the visit functions with the error step, used to
show that an early error does not change how the rest of a subtree is
visited and decorated. -/

mutual
theorem VisitExpr_error (e : Expr) (st : AnalyzerState) :
    VisitExpr e (Error st) = Error (VisitExpr e st) := by
  cases e with
  | literal => rfl
  | call nm args =>
    simp only [VisitExpr]
    split
    · exact VisitExprs_error args { st with mulIntrinsicUsed := true }
    · split
      · exact VisitExprs_error args
          { st with interlockedIntrinsicsUsed := true }
      · exact VisitExprs_error args st
termination_by sizeOf e
theorem VisitExprs_error (es : List Expr) (st : AnalyzerState) :
    VisitExprs es (Error st) = Error (VisitExprs es st) := by
  cases es with
  | nil => rfl
  | cons e es =>
    show VisitExprs es (VisitExpr e (Error st)) =
      Error (VisitExprs es (VisitExpr e st))
    rw [VisitExpr_error e st]
    exact VisitExprs_error es (VisitExpr e st)
termination_by sizeOf es
end

theorem VisitOptExpr_error (oe : Option Expr) (st : AnalyzerState) :
    VisitOptExpr oe (Error st) = Error (VisitOptExpr oe st) := by
  cases oe with
  | none => rfl
  | some e => exact VisitExpr_error e st

theorem VisitVarDecl_error (vd : VarDecl) (st : AnalyzerState) :
    VisitVarDecl vd (Error st) = Error (VisitVarDecl vd st) := by
  show VisitOptExpr vd.initializer (VisitExprs vd.arrayDims (Error st)) =
    Error (VisitOptExpr vd.initializer (VisitExprs vd.arrayDims st))
  rw [VisitExprs_error]
  exact VisitOptExpr_error vd.initializer _

theorem VisitVarDecls_error (vds : List VarDecl) (st : AnalyzerState) :
    VisitVarDecls vds (Error st) = Error (VisitVarDecls vds st) := by
  induction vds generalizing st with
  | nil => rfl
  | cons d ds ih =>
    show VisitVarDecls ds (VisitVarDecl d (Error st)) =
      Error (VisitVarDecls ds (VisitVarDecl d st))
    rw [VisitVarDecl_error]
    exact ih _

theorem Register_error (st : AnalyzerState) (n : String) (s : Symbol)
    (ovr : Symbol → Bool) :
    Register (Error st) n s ovr = Error (Register st n s ovr) := by
  show (match registerTable st.symTable n s ovr with
        | some tbl => { Error st with symTable := tbl }
        | none => Error (Error st)) = Error (Register st n s ovr)
  unfold Register
  cases registerTable st.symTable n s ovr with
  | some tbl => rfl
  | none => rfl


mutual
theorem VisitVarType_error (vt : VarType) (st : AnalyzerState) :
    VisitVarType vt (Error st) =
      ((VisitVarType vt st).1, Error (VisitVarType vt st).2) := by
  cases vt with
  | mk b stp sr =>
    cases stp with
    | none =>
      simp only [VisitVarType]
      split
      · simp only [Error]
        split
        · rfl
        · rfl
      · rfl
    | some s =>
      simp only [VisitVarType]
      split
      · simp only [Error]
        split
        · rfl
        · rfl
      · rw [VisitStructure_error s st]
termination_by sizeOf vt
theorem VisitStructure_error (s : Structure) (st : AnalyzerState) :
    VisitStructure s (Error st) =
      ((VisitStructure s st).1, Error (VisitStructure s st).2) := by
  cases s with
  | mk sid name ms =>
    simp only [VisitStructure]
    split
    · rw [Register_error,
        VisitVarDeclStmnts_error ms
          (Register st name (.structSym sid) structDeclOverride)]
    · rw [VisitVarDeclStmnts_error ms st]
termination_by sizeOf s
theorem VisitVarDeclStmnts_error (ds : List VarDeclStmnt)
    (st : AnalyzerState) :
    VisitVarDeclStmnts ds (Error st) =
      ((VisitVarDeclStmnts ds st).1, Error (VisitVarDeclStmnts ds st).2) := by
  cases ds with
  | nil => rfl
  | cons d ds =>
    simp only [VisitVarDeclStmnts]
    rw [VisitVarDeclStmnt_error d st]
    dsimp only
    rw [VisitVarDeclStmnts_error ds (VisitVarDeclStmnt d st).2]
termination_by sizeOf ds
theorem VisitVarDeclStmnt_error (d : VarDeclStmnt) (st : AnalyzerState) :
    VisitVarDeclStmnt d (Error st) =
      ((VisitVarDeclStmnt d st).1, Error (VisitVarDeclStmnt d st).2) := by
  cases d with
  | mk vt vds inF outF =>
    simp only [VisitVarDeclStmnt]
    rw [VisitVarType_error vt st]
    dsimp only
    rw [VisitVarDecls_error vds (VisitVarType vt st).2]
    simp only [Error]
    split
    · split
      · split
        · split
          · rfl
          · rfl
        · rfl
      · rfl
    · rfl
termination_by sizeOf d
end


/-- C2 (counterexample): during a single decoration pass of the
two-parameter entry program, the structure alias is assigned from the
first parameter declarator and later overwritten with the different
second declarator name: the overwrite counter ends at one and the final
alias is the second name, so the alias is not written at most once. -/
theorem C2_counterexample_alias_overwritten :
    finalAliasOverwrites (DecorateAST (some exProgramTwoParams) [] "main") =
      some 1
    ∧ finalAlias (DecorateAST (some exProgramTwoParams) [] "main") 0 =
      some "b" :=
  ⟨rfl, rfl⟩

/-- C2 (amended): statement visits never change the structure store (in
particular the guarded VarDeclStmnt branch never overwrites an existing
alias); the unguarded entry-parameter decoration is the only alias
writer and can overwrite an already-set alias with a later parameter
declarator name, so the last such writer wins, as the two-parameter
program shows. -/
theorem C2_alias_writes (s : Stmnt) (st : AnalyzerState) :
    (VisitStmnt s st).2.structs = st.structs
    ∧ finalAlias (DecorateAST (some exProgramTwoParams) [] "main") 0 =
        some "b" :=
  ⟨(VisitStmnt_facts s st).structs_eq, rfl⟩

/-- C3: on the program whose entry function returns the structure type
and whose body declares that type with an empty declarator list, the
alias-assignment branch of the VarDeclStmnt rule is taken (the
structure is shader output with an empty alias) and the source then
reads the first element of the empty declarator list: the model records
that out-of-bounds front read, the alias stays unassigned, and the
structure indeed carries the shader-output flag. -/
theorem C3_front_read_on_empty_declarators :
    finalFrontOnEmpty (DecorateAST (some exProgramEmptyDecl) [] "main") =
      some true
    ∧ finalAlias (DecorateAST (some exProgramEmptyDecl) [] "main") 0 = some ""
    ∧ finalShaderOutput (DecorateAST (some exProgramEmptyDecl) [] "main") 0 =
      some true :=
  ⟨rfl, rfl, rfl⟩

/-- C8: a buffer declaration of the constant-buffer kind reports no
error of its own (the result is exactly the members visit); any other
kind reports exactly one error for the node, and the members are
visited and decorated exactly as they would be with the supported
kind. -/
theorem C8_buffer_kind (b : BufferDecl) (st : AnalyzerState) :
    (b.bufferType = "cbuffer" →
      VisitBufferDecl b st =
        ({ b with members := (VisitVarDeclStmnts b.members st).1 },
         (VisitVarDeclStmnts b.members st).2))
    ∧ (b.bufferType ≠ "cbuffer" →
        (VisitBufferDecl b st).1.members =
          (VisitBufferDecl { b with bufferType := "cbuffer" } st).1.members
        ∧ (VisitBufferDecl b st).1.bufferType = b.bufferType
        ∧ (VisitBufferDecl b st).2 =
            Error (VisitBufferDecl { b with bufferType := "cbuffer" } st).2
        ∧ (VisitBufferDecl b st).2.reported =
            (VisitBufferDecl { b with bufferType := "cbuffer" } st).2.reported
              + 1) := by
  constructor
  · intro hk
    simp only [VisitBufferDecl, hk]
    simp
  · intro hk
    have hvis : VisitBufferDecl b st =
        ({ b with members := (VisitVarDeclStmnts b.members (Error st)).1 },
         (VisitVarDeclStmnts b.members (Error st)).2) := by
      simp only [VisitBufferDecl]
      rw [if_pos hk]
    have hc : VisitBufferDecl { b with bufferType := "cbuffer" } st =
        (BufferDecl.mk "cbuffer" (VisitVarDeclStmnts b.members st).1,
         (VisitVarDeclStmnts b.members st).2) := by
      simp only [VisitBufferDecl]
      simp
    rw [hvis, hc, VisitVarDeclStmnts_error b.members st]
    exact ⟨rfl, rfl, rfl, rfl⟩

/-- Witness for C8: a tbuffer declaration with one member reports
exactly one more diagnostic than the same cbuffer declaration, and its
member is decorated identically. -/
theorem C8_buffer_kind_witness :
    ("tbuffer" : String) ≠ "cbuffer"
    ∧ (VisitBufferDecl ⟨"tbuffer", [exParam "m"]⟩ exState).2.reported =
      (VisitBufferDecl ⟨"cbuffer", [exParam "m"]⟩ exState).2.reported + 1
    ∧ (VisitBufferDecl ⟨"tbuffer", [exParam "m"]⟩ exState).1.members =
      (VisitBufferDecl ⟨"cbuffer", [exParam "m"]⟩ exState).1.members := by
  have h := (C8_buffer_kind ⟨"tbuffer", [exParam "m"]⟩ exState).2 (by decide)
  exact ⟨by decide, h.2.2.2, h.1⟩

/-- C9: visiting a variable type resolves a named base type via fetch
and records the symbol reference only when a symbol is found, with no
error and no other state change whether or not the name resolves; a
type with an inline structure visits that structure; a type with
neither reports exactly one missing-variable-type error. -/
theorem C9_var_type_rule (b : String) (stp : Option Structure)
    (sr : Option Symbol) (st : AnalyzerState) :
    (∀ sym, b ≠ "" → fetchTable st.symTable b = some sym →
      VisitVarType (.mk b stp sr) st = (.mk b stp (some sym), st))
    ∧ (b ≠ "" → fetchTable st.symTable b = none →
      VisitVarType (.mk b stp sr) st = (.mk b stp sr, st))
    ∧ (∀ s, b = "" → stp = some s →
      VisitVarType (.mk b stp sr) st =
        (.mk b (some (VisitStructure s st).1) sr, (VisitStructure s st).2))
    ∧ (b = "" → stp = none →
      VisitVarType (.mk b stp sr) st = (.mk b stp sr, Error st)
      ∧ (Error st).reported = st.reported + 1
      ∧ (Error st).hasErrors = true) := by
  refine ⟨?_, ?_, ?_, ?_⟩
  · intro sym hne hf
    have hb : (b == "") = false := by simp [hne]
    cases stp with
    | none => simp only [VisitVarType, hb, hf]
    | some s => simp only [VisitVarType, hb, hf]
  · intro hne hf
    have hb : (b == "") = false := by simp [hne]
    cases stp with
    | none => simp only [VisitVarType, hb, hf]
    | some s => simp only [VisitVarType, hb, hf]
  · intro s hbe hstp
    subst hbe
    subst hstp
    have hb : (("" : String) == "") = true := rfl
    simp only [VisitVarType, hb]
  · intro hbe hstp
    subst hbe
    subst hstp
    have hb : (("" : String) == "") = true := rfl
    refine ⟨?_, rfl, rfl⟩
    simp only [VisitVarType, hb]

/-- Witness for C9 at concrete inputs: a resolvable named base type
records the fetched symbol, an unresolvable one records nothing and
changes nothing, an inline structure is visited, and an empty type
reports one error. -/
theorem C9_var_type_rule_witness :
    VisitVarType (.mk "S" none none) exState =
      (.mk "S" none (some (.structSym 0)), exState)
    ∧ VisitVarType (.mk "T" none none) exState =
      (.mk "T" none none, exState)
    ∧ VisitVarType (.mk "" (some (.mk 1 "U" [])) none) exState =
      (.mk "" (some (VisitStructure (.mk 1 "U" []) exState).1) none,
       (VisitStructure (.mk 1 "U" []) exState).2)
    ∧ VisitVarType (.mk "" none none) exState =
      (.mk "" none none, Error exState) := by
  refine ⟨?_, ?_, ?_, ?_⟩
  · exact (C9_var_type_rule "S" none none exState).1 (.structSym 0)
      (by decide) rfl
  · exact (C9_var_type_rule "T" none none exState).2.1 (by decide) rfl
  · exact (C9_var_type_rule "" (some (.mk 1 "U" [])) none exState).2.2.1
      (.mk 1 "U" []) rfl rfl
  · exact ((C9_var_type_rule "" none none exState).2.2.2 rfl rfl).1


theorem lookupName_replaceName (fr : Frame) (n : String) (s : Symbol)
    (old : Symbol) (h : lookupName fr n = some old) :
    lookupName (replaceName fr n s) n = some s := by
  induction fr with
  | nil => simp [lookupName] at h
  | cons e rest ih =>
    obtain ⟨m, v⟩ := e
    by_cases hm : m = n
    · subst hm
      simp [replaceName, lookupName]
    · simp [replaceName, lookupName, hm] at h ⊢
      exact ih h

/-- C6: the code-block rule opens a scope, visits the statements and
closes the scope, leaving the symbol table exactly as before the block,
so any symbol registered while visiting the block is no longer returned
by fetch afterwards; a name absent from an inner frame is fetched from
the outer frames through it (outer registrations stay visible in a
nested scope); and a successful registration makes fetch return exactly
the newly registered innermost symbol, shadowing any outer binding of
the same name. -/
theorem C6_scoping (ss : List Stmnt) (st : AnalyzerState) (n : String)
    (f : Frame) (tbl tbl2 : SymTable) (s : Symbol) (ovr : Symbol → Bool) :
    ((VisitCodeBlock ss st).2.symTable = st.symTable
     ∧ ∀ m, fetchTable (VisitCodeBlock ss st).2.symTable m =
        fetchTable st.symTable m)
    ∧ (lookupName f n = none →
        fetchTable (f :: tbl) n = fetchTable tbl n)
    ∧ (registerTable tbl n s ovr = some tbl2 →
        fetchTable tbl2 n = some s) := by
  refine ⟨⟨VisitCodeBlock_symTable ss st, ?_⟩, ?_, ?_⟩
  · intro m
    rw [VisitCodeBlock_symTable]
  · intro hl
    simp [fetchTable, hl]
  · intro hreg
    cases tbl with
    | nil => simp [registerTable] at hreg
    | cons fr rest =>
      simp only [registerTable] at hreg
      cases hl : lookupName fr n with
      | none =>
        rw [hl] at hreg
        obtain rfl : ((n, s) :: fr) :: rest = tbl2 := by simpa using hreg
        simp [fetchTable, lookupName]
      | some old =>
        simp only [hl] at hreg
        by_cases hv : ovr old = true
        · rw [if_pos hv] at hreg
          obtain rfl : replaceName fr n s :: rest = tbl2 := by
            simpa using hreg
          have hrepl := lookupName_replaceName fr n s old hl
          simp [fetchTable, hrepl]
        · rw [if_neg hv] at hreg
          cases hreg

/-- Witness for C6 at concrete inputs: a block that registers an inline
named structure leaves fetch unchanged once the block is done; an outer
binding is fetched through an empty inner frame; registering a
same-named symbol in the innermost frame shadows the outer binding. -/
theorem C6_scoping_witness :
    fetchTable
      (VisitCodeBlock
        [.varDeclStmnt (.mk (.mk "" (some (.mk 7 "Local" [])) none) []
          false false)]
        exState).2.symTable "Local" = none
    ∧ fetchTable ([] :: [[("S", Symbol.structSym 0)]]) "S" =
        some (.structSym 0)
    ∧ fetchTable [[("S", Symbol.structSym 5)], [("S", Symbol.structSym 0)]]
        "S" = some (.structSym 5) := by
  refine ⟨?_, ?_, ?_⟩
  · rw [(C6_scoping
      [.varDeclStmnt (.mk (.mk "" (some (.mk 7 "Local" [])) none) []
        false false)]
      exState "Local" [] [] [] (.structSym 7) structDeclOverride).1.2 "Local"]
    rfl
  · exact (C6_scoping [] exState "S" [] [[("S", Symbol.structSym 0)]] []
      (.structSym 0) structDeclOverride).2.1 rfl
  · exact (C6_scoping [] exState "S" [] ([] :: [[("S", Symbol.structSym 0)]])
      [[("S", Symbol.structSym 5)], [("S", Symbol.structSym 0)]]
      (.structSym 5) structDeclOverride).2.2 rfl

/-- C7: visiting a named structure with a name free in the innermost
frame registers it there (fetch then returns it) without reporting;
visiting a second same-named structure in the same scope reports
exactly one additional duplicate error and fetch still returns the
first structure; and an anonymous structure itself is never registered:
no symbol with its identity enters the table unless it was there before
or a member registration introduces it. -/
theorem C7_structure_registration (sid1 sid2 sidA : Nat) (n nA : String)
    (msA : List VarDeclStmnt) (st : AnalyzerState) (f : Frame)
    (rest : List Frame) :
    (n ≠ "" → st.symTable = f :: rest → lookupName f n = none →
      fetchTable (VisitStructure (.mk sid1 n []) st).2.symTable n =
        some (.structSym sid1)
      ∧ (VisitStructure (.mk sid1 n []) st).2.reported = st.reported
      ∧ (VisitStructure (.mk sid2 n [])
          (VisitStructure (.mk sid1 n []) st).2).2.reported =
          st.reported + 1
      ∧ fetchTable (VisitStructure (.mk sid2 n [])
          (VisitStructure (.mk sid1 n []) st).2).2.symTable n =
          some (.structSym sid1))
    ∧ (nA = "" →
        tableHasSym st.symTable (.structSym sidA) = false →
        Symbol.structSym sidA ∉ structureRegs (.mk sidA nA msA) →
        tableHasSym (VisitStructure (.mk sidA nA msA) st).2.symTable
          (.structSym sidA) = false) := by
  constructor
  · intro hne htbl hl
    have hreg1 : Register st n (.structSym sid1) structDeclOverride =
        { st with symTable := ((n, Symbol.structSym sid1) :: f) :: rest } := by
      unfold Register
      have hx : registerTable st.symTable n (.structSym sid1)
          structDeclOverride =
          some (((n, Symbol.structSym sid1) :: f) :: rest) := by
        rw [htbl]
        simp [registerTable, hl]
      rw [hx]
    have h1 : VisitStructure (.mk sid1 n []) st =
        (.mk sid1 n [],
         { st with symTable := ((n, Symbol.structSym sid1) :: f) :: rest }) := by
      simp only [VisitStructure]
      rw [if_pos hne, hreg1]
      rfl
    rw [h1]
    have hl2 : lookupName ((n, Symbol.structSym sid1) :: f) n =
        some (.structSym sid1) := by
      simp [lookupName]
    have hreg2 : Register
        { st with symTable := ((n, Symbol.structSym sid1) :: f) :: rest } n
        (.structSym sid2) structDeclOverride =
        Error { st with
          symTable := ((n, Symbol.structSym sid1) :: f) :: rest } := by
      unfold Register
      have hx : registerTable (((n, Symbol.structSym sid1) :: f) :: rest) n
          (.structSym sid2) structDeclOverride = none := by
        simp [registerTable, hl2, structDeclOverride, Symbol.astType]
      rw [hx]
    have h2 : VisitStructure (.mk sid2 n [])
        { st with symTable := ((n, Symbol.structSym sid1) :: f) :: rest } =
        (.mk sid2 n [],
         Error { st with
           symTable := ((n, Symbol.structSym sid1) :: f) :: rest }) := by
      simp only [VisitStructure]
      rw [if_pos hne, hreg2]
      rfl
    rw [h2]
    exact ⟨by simp [fetchTable, hl2], rfl, rfl, by simp [fetchTable, Error, hl2]⟩
  · intro hname hnot hmem
    cases h2 : tableHasSym (VisitStructure (.mk sidA nA msA) st).2.symTable
        (.structSym sidA) with
    | false => rfl
    | true =>
      rcases (VisitStructure_facts (.mk sidA nA msA) st).syms_sub _ h2 with
        hh | hh
      · rw [hnot] at hh
        cases hh
      · exact absurd hh hmem

/-- Witness for C7: two same-named structures with identities 0 and 1
visited in the empty global scope report exactly one error, fetch keeps
the first; an anonymous structure with no members registers nothing. -/
theorem C7_structure_registration_witness :
    (fetchTable (VisitStructure (.mk 0 "A" [])
        (initialState ⟨[], false, false⟩ [] "main")).2.symTable "A" =
      some (.structSym 0)
    ∧ (VisitStructure (.mk 0 "A" [])
        (initialState ⟨[], false, false⟩ [] "main")).2.reported = 0
    ∧ (VisitStructure (.mk 1 "A" [])
        (VisitStructure (.mk 0 "A" [])
          (initialState ⟨[], false, false⟩ [] "main")).2).2.reported = 1
    ∧ fetchTable (VisitStructure (.mk 1 "A" [])
        (VisitStructure (.mk 0 "A" [])
          (initialState ⟨[], false, false⟩ [] "main")).2).2.symTable "A" =
      some (.structSym 0))
    ∧ tableHasSym (VisitStructure (.mk 5 "" [])
        (initialState ⟨[], false, false⟩ [] "main")).2.symTable
        (.structSym 5) = false := by
  constructor
  · exact (C7_structure_registration 0 1 5 "A" "" [] _ [] [] ).1
      (by decide) rfl rfl
  · exact (C7_structure_registration 0 1 5 "A" "" [] _ [] []).2 rfl rfl
      (by simp [structureRegs, varDeclStmntsRegs])

/-- C10: the structure rule registers the structure node itself, whose
runtime variant is Structure, while its override predicate accepts only
a StructDecl entry; hence the predicate rejects every symbol that rule
registers, and a later same-scope re-registration of the name under
either override predicate used by this analyzer fails as a duplicate
and is reported (the forward-declaration completion path is never
taken). -/
theorem C10_struct_override_never_permits (st : AnalyzerState) (f : Frame)
    (rest : List Frame) (n : String) (i : Nat) (sym2 : Symbol) :
    structDeclOverride (.structSym i) = false
    ∧ (Symbol.structSym i).astType = ASTTypes.Structure
    ∧ (st.symTable = f :: rest → lookupName f n = some (.structSym i) →
        Register st n sym2 structDeclOverride = Error st
        ∧ Register st n sym2 functionDeclOverride = Error st
        ∧ (Error st).reported = st.reported + 1) := by
  refine ⟨rfl, rfl, ?_⟩
  intro htbl hl
  refine ⟨?_, ?_, rfl⟩
  · unfold Register
    have hx : registerTable st.symTable n sym2 structDeclOverride = none := by
      rw [htbl]
      simp [registerTable, hl, structDeclOverride, Symbol.astType]
    rw [hx]
  · unfold Register
    have hx : registerTable st.symTable n sym2 functionDeclOverride = none := by
      rw [htbl]
      simp [registerTable, hl, functionDeclOverride, Symbol.astType]
    rw [hx]

/-- Witness for C10: with the global frame holding the structure symbol
of identity 0 under its name, re-registering that name with either
predicate reports a duplicate and leaves the state error-marked. -/
theorem C10_struct_override_never_permits_witness :
    structDeclOverride (.structSym 0) = false
    ∧ Register exState "S" (.structSym 1) structDeclOverride =
        Error exState
    ∧ Register exState "S" (.funcSym 1) functionDeclOverride =
        Error exState := by
  have h := C10_struct_override_never_permits exState
    [("S", Symbol.structSym 0)] [] "S" 0 (.structSym 1)
  have h2 := C10_struct_override_never_permits exState
    [("S", Symbol.structSym 0)] [] "S" 0 (.funcSym 1)
  exact ⟨h.1, (h.2.2 rfl rfl).1, (h2.2.2 rfl rfl).2.1⟩


theorem Register_entryPoint (st : AnalyzerState) (n : String) (s : Symbol)
    (ovr : Symbol → Bool) :
    (Register st n s ovr).entryPoint = st.entryPoint := by
  unfold Register
  cases registerTable st.symTable n s ovr <;> rfl

theorem DecorateEntryInOutStmnt_input (d : VarDeclStmnt)
    (st : AnalyzerState) :
    (DecorateEntryInOutStmnt d true st).1.isShaderInput = true := by
  cases d with
  | mk vt vds i o => rfl

theorem DecorateParams_input (ps : List VarDeclStmnt) (st : AnalyzerState) :
    ∀ q ∈ (DecorateParams ps st).1, q.isShaderInput = true := by
  induction ps generalizing st with
  | nil =>
    intro q hq
    simp [DecorateParams] at hq
  | cons p ps ih =>
    intro q hq
    simp only [DecorateParams] at hq
    rcases List.mem_cons.mp hq with heq | hq
    · rw [heq]
      exact DecorateEntryInOutStmnt_input p st
    · exact ih _ q hq

theorem getStruct_addStructFlag_out (st : AnalyzerState) (i : Nat) :
    (getStruct (addStructFlag st i false).structs i).isShaderOutput = true := by
  simp [addStructFlag, getStruct_updStruct_self]

theorem DecorateEntryInOutType_sets (vt : VarType) (st : AnalyzerState) :
    (∀ s, vt.structType = some s →
      (getStruct (DecorateEntryInOutType vt false st).structs
        s.sid).isShaderOutput = true)
    ∧ (∀ sid, vt.symbolRef = some (.structSym sid) →
      (getStruct (DecorateEntryInOutType vt false st).structs
        sid).isShaderOutput = true) := by
  unfold DecorateEntryInOutType
  constructor
  · intro s hs
    simp only [hs]
    cases hsr : vt.symbolRef with
    | some sym =>
      cases sym with
      | structSym sid2 =>
        exact ((addStructFlag_mono (addStructFlag st s.sid false) sid2
          false) s.sid).2 (getStruct_addStructFlag_out st s.sid)
      | funcSym fid => exact getStruct_addStructFlag_out st s.sid
    | none => exact getStruct_addStructFlag_out st s.sid
  · intro sid hsr
    simp only [hsr]
    cases vt.structType with
    | some s2 => exact getStruct_addStructFlag_out (addStructFlag st s2.sid false) sid
    | none => exact getStruct_addStructFlag_out st sid

theorem VisitFunctionDecl_out (f : FunctionDecl) (st : AnalyzerState)
    (hEp : f.isEntryPoint = false) (hUs : f.isUsed = false) :
    (VisitFunctionDecl f st).1.name = f.name
    ∧ ((VisitFunctionDecl f st).1.isEntryPoint = true ↔
        f.name = st.entryPoint)
    ∧ ((VisitFunctionDecl f st).1.isUsed = true ↔ f.name = st.entryPoint)
    ∧ (f.name = st.entryPoint →
        (∀ q ∈ (VisitFunctionDecl f st).1.parameters, q.isShaderInput = true)
        ∧ (∀ s, (VisitFunctionDecl f st).1.returnType.structType = some s →
            (getStruct (VisitFunctionDecl f st).2.structs
              s.sid).isShaderOutput = true)
        ∧ (∀ sid, (VisitFunctionDecl f st).1.returnType.symbolRef =
              some (.structSym sid) →
            (getStruct (VisitFunctionDecl f st).2.structs
              sid).isShaderOutput = true)) := by
  have hR : (Register st f.name (.funcSym f.fid) functionDeclOverride).entryPoint = st.entryPoint :=
    Register_entryPoint st f.name (.funcSym f.fid) functionDeclOverride
  simp only [VisitFunctionDecl]
  split
  · next hE =>
    rw [hR] at hE
    refine ⟨by trivial, by simp [hE], by simp [hE], ?_⟩
    intro hname
    have hsets := DecorateEntryInOutType_sets (VisitVarType f.returnType (Register st f.name (.funcSym f.fid) functionDeclOverride)).1 (VisitVarDeclStmnts f.parameters (VisitVarType f.returnType (Register st f.name (.funcSym f.fid) functionDeclOverride)).2).2
    have hmono := (DecorateParams_facts (VisitVarDeclStmnts f.parameters (VisitVarType f.returnType (Register st f.name (.funcSym f.fid) functionDeclOverride)).2).1 (DecorateEntryInOutType (VisitVarType f.returnType (Register st f.name (.funcSym f.fid) functionDeclOverride)).1 false (VisitVarDeclStmnts f.parameters (VisitVarType f.returnType (Register st f.name (.funcSym f.fid) functionDeclOverride)).2).2)).flag_mono
    have hbody : ({ (VisitCodeBlock f.codeBlock { (DecorateParams (VisitVarDeclStmnts f.parameters (VisitVarType f.returnType (Register st f.name (.funcSym f.fid) functionDeclOverride)).2).1 (DecorateEntryInOutType (VisitVarType f.returnType (Register st f.name (.funcSym f.fid) functionDeclOverride)).1 false (VisitVarDeclStmnts f.parameters (VisitVarType f.returnType (Register st f.name (.funcSym f.fid) functionDeclOverride)).2).2)).2 with isInsideEntryPoint := (decide (f.name = (Register st f.name (.funcSym f.fid) functionDeclOverride).entryPoint)) }).2 with isInsideEntryPoint := false }).structs =
        (DecorateParams (VisitVarDeclStmnts f.parameters (VisitVarType f.returnType (Register st f.name (.funcSym f.fid) functionDeclOverride)).2).1 (DecorateEntryInOutType (VisitVarType f.returnType (Register st f.name (.funcSym f.fid) functionDeclOverride)).1 false (VisitVarDeclStmnts f.parameters (VisitVarType f.returnType (Register st f.name (.funcSym f.fid) functionDeclOverride)).2).2)).2.structs :=
      (VisitCodeBlock_facts f.codeBlock { (DecorateParams (VisitVarDeclStmnts f.parameters (VisitVarType f.returnType (Register st f.name (.funcSym f.fid) functionDeclOverride)).2).1 (DecorateEntryInOutType (VisitVarType f.returnType (Register st f.name (.funcSym f.fid) functionDeclOverride)).1 false (VisitVarDeclStmnts f.parameters (VisitVarType f.returnType (Register st f.name (.funcSym f.fid) functionDeclOverride)).2).2)).2 with isInsideEntryPoint := (decide (f.name = (Register st f.name (.funcSym f.fid) functionDeclOverride).entryPoint)) }).structs_eq
    refine ⟨fun q hq => DecorateParams_input _ _ q hq, ?_, ?_⟩
    · intro s hs
      have h0 := hsets.1 s hs
      have h1 := (hmono s.sid).2 h0
      rw [hbody]
      exact h1
    · intro sid hsr
      have h0 := hsets.2 sid hsr
      have h1 := (hmono sid).2 h0
      rw [hbody]
      exact h1
  · next hE =>
    rw [hR] at hE
    refine ⟨by trivial, by simp [hEp, hE], by simp [hUs, hE], ?_⟩
    intro hname
    exact absurd hname hE

theorem VisitGlobalDecls_entry (entry : String) (ds : List GlobalDecl)
    (st : AnalyzerState) (hst : st.entryPoint = entry)
    (hflags : ∀ f, GlobalDecl.functionDecl f ∈ ds →
      f.isEntryPoint = false ∧ f.isUsed = false) :
    ∀ f, GlobalDecl.functionDecl f ∈ (VisitGlobalDecls ds st).1 →
      (((f.isEntryPoint = true ↔ f.name = entry)
        ∧ (f.isUsed = true ↔ f.name = entry))
       ∧ (f.name = entry →
           (∀ q ∈ f.parameters, q.isShaderInput = true)
           ∧ (∀ s, f.returnType.structType = some s →
               (getStruct (VisitGlobalDecls ds st).2.structs
                 s.sid).isShaderOutput = true)
           ∧ (∀ sid, f.returnType.symbolRef = some (.structSym sid) →
               (getStruct (VisitGlobalDecls ds st).2.structs
                 sid).isShaderOutput = true))) := by
  induction ds generalizing st with
  | nil =>
    intro f hf
    simp [VisitGlobalDecls] at hf
  | cons d ds ih =>
    intro f hf
    simp only [VisitGlobalDecls] at hf ⊢
    have hrest := VisitGlobalDecls_facts ds (VisitGlobalDecl d st).2
    rcases List.mem_cons.mp hf with heq | hmem
    · cases d with
      | functionDecl f0 =>
        have hflag0 := hflags f0 (by simp)
        have hout := VisitFunctionDecl_out f0 st hflag0.1 hflag0.2
        have hf0 : f = (VisitFunctionDecl f0 st).1 := by
          simp only [VisitGlobalDecl] at heq
          simpa using heq
        subst hf0
        have hname := hout.1
        have hiff1 := hout.2.1
        have hiff2 := hout.2.2.1
        have hcons0 := hout.2.2.2
        rw [hst] at hiff1 hiff2 hcons0
        constructor
        · rw [hname]
          exact ⟨hiff1, hiff2⟩
        · rw [hname]
          intro hh
          have hcons := hcons0 hh
          refine ⟨hcons.1, ?_, ?_⟩
          · intro s hs
            exact (hrest.flag_mono s.sid).2 (hcons.2.1 s hs)
          · intro sid hsr
            exact (hrest.flag_mono sid).2 (hcons.2.2 sid hsr)
      | bufferDecl b =>
        simp only [VisitGlobalDecl] at heq
        simp at heq
      | structDecl s =>
        simp only [VisitGlobalDecl] at heq
        simp at heq
    · have hst2 : (VisitGlobalDecl d st).2.entryPoint = entry :=
        (VisitGlobalDecl_facts d st).entry_eq.trans hst
      have hflags2 : ∀ f2, GlobalDecl.functionDecl f2 ∈ ds →
          f2.isEntryPoint = false ∧ f2.isUsed = false :=
        fun f2 hf2 => hflags f2 (List.mem_cons_of_mem d hf2)
      exact ih (VisitGlobalDecl d st).2 hst2 hflags2 f hmem

/-- C4: for a program whose function declarations start with clear
flags, a decorated function declaration carries the entry-point flag
exactly when its name equals the configured entry-point name, and
likewise the used flag, so declarations with a different name receive
neither flag regardless of position; and each entry function has every
parameter flagged shader input and its return type structure (inline
or referenced) flagged shader output in the final structure store. -/
theorem C4_entry_point_selection (p : Program)
    (structs0 : List (Nat × StructMut)) (entryPoint : String) (p' : Program)
    (st' : AnalyzerState)
    (hflags : ∀ f, GlobalDecl.functionDecl f ∈ p.globalDecls →
      f.isEntryPoint = false ∧ f.isUsed = false)
    (hp : (DecorateAST (some p) structs0 entryPoint).program = some p')
    (hst : (DecorateAST (some p) structs0 entryPoint).finalState = some st') :
    ∀ f, GlobalDecl.functionDecl f ∈ p'.globalDecls →
      (((f.isEntryPoint = true ↔ f.name = entryPoint)
        ∧ (f.isUsed = true ↔ f.name = entryPoint))
       ∧ (f.name = entryPoint →
           (∀ q ∈ f.parameters, q.isShaderInput = true)
           ∧ (∀ s, f.returnType.structType = some s →
               (getStruct st'.structs s.sid).isShaderOutput = true)
           ∧ (∀ sid, f.returnType.symbolRef = some (.structSym sid) →
               (getStruct st'.structs sid).isShaderOutput = true))) := by
  have hp' : p' = (VisitProgram p (initialState p structs0 entryPoint)).1 := by
    have hx : (DecorateAST (some p) structs0 entryPoint).program =
        some (VisitProgram p (initialState p structs0 entryPoint)).1 := rfl
    rw [hx] at hp
    exact (Option.some_inj.mp hp).symm
  have hst2 : st' = (VisitProgram p (initialState p structs0 entryPoint)).2 := by
    have hx : (DecorateAST (some p) structs0 entryPoint).finalState =
        some (VisitProgram p (initialState p structs0 entryPoint)).2 := rfl
    rw [hx] at hst
    exact (Option.some_inj.mp hst).symm
  subst hp'
  subst hst2
  intro f hf
  exact VisitGlobalDecls_entry entryPoint p.globalDecls
    (initialState p structs0 entryPoint) rfl hflags f hf

/-- Witness for C4 on the two-function program: the decorated program
exists, and every decorated function declaration carries the two flags
exactly when it is named main; in particular an entry function exists
with both flags set. -/
theorem C4_entry_point_selection_witness :
    ∃ p' st',
      (DecorateAST (some exProgramTwoFuncs) [] "main").program = some p'
      ∧ (DecorateAST (some exProgramTwoFuncs) [] "main").finalState = some st'
      ∧ (∀ f, GlobalDecl.functionDecl f ∈ p'.globalDecls →
          (f.isEntryPoint = true ↔ f.name = "main")
          ∧ (f.isUsed = true ↔ f.name = "main"))
      ∧ (getStruct st'.structs 0).isShaderOutput = true := by
  refine ⟨_, _, rfl, rfl, ?_, ?_⟩
  · intro f hf
    exact (C4_entry_point_selection exProgramTwoFuncs [] "main" _ _
      (by
        intro f2 hf2
        simp [exProgramTwoFuncs] at hf2
        rcases hf2 with rfl | rfl
        · exact ⟨rfl, rfl⟩
        · exact ⟨rfl, rfl⟩)
      rfl rfl f hf).1
  · rfl

end HTLib
